import Mathlib

/-!
# RuntimeAudioImporter: the import pipeline, the dispatcher and the RAW converter

A shallow embedding of `RuntimeAudioImporterLibrary.cpp`.

* Byte buffers (`TArray<uint8>`, or a pointer with its size) are lists of
  naturals, one entry per byte.
* The codec backends (`MP3Transcoder`, `WAVTranscoder`, `FlacTranscoder`,
  `VorbisTranscoder`), the RAW sample converters of `RAWTranscoder` and the
  engine services (file system, object construction) are defined outside
  `RuntimeAudioImporterLibrary.cpp`; they are fields of `Env`, so every
  theorem quantified over `Env` holds for whatever those functions compute.
* A function with reference out-parameters returns the new values of those
  parameters next to its return value.
* Calls whose order or number matters are recorded, in program order, in a
  list of `Event`s.  A task handed to `AsyncTask` or to
  `FAudioThread::RunCommandOnAudioThread` is run to completion at the point
  where it is enqueued; each import run is a single chain of such tasks.
* A run that reaches an operation without a defined result (a `RemoveAt`
  outside the array, an integer division by zero) has no trace: the entry
  point returns `none`.
* A `float` is a value of IEEE 754 single precision (`CFloat`); conversions
  and division round to nearest, ties to even.
-/

namespace RuntimeAudioImporter

/-! ## Data model -/

/-- Contents of a `TArray<uint8>`: one natural per byte. -/
abbrev Bytes := List Nat

/-- Container formats, `EAudioFormat`. -/
inductive EAudioFormat where
  | Auto
  | Mp3
  | Wav
  | Flac
  | OggVorbis
  | Invalid
  deriving DecidableEq, Repr

/-- Headerless sample encodings, `ERAWAudioFormat`. -/
inductive ERAWAudioFormat where
  | Int16
  | Int32
  | UInt8
  | Float32
  deriving DecidableEq, Repr

/-- The values of `ETranscodingStatus` that the library emits. -/
inductive ETranscodingStatus where
  | SuccessfulImport
  | FailedToReadAudioDataArray
  | SoundWaveDeclarationError
  | InvalidAudioFormat
  | AudioDoesNotExist
  | LoadFileToArrayError
  deriving DecidableEq, Repr

/-- The four codec backends. -/
inductive Transcoder where
  | MP3Transcoder
  | WAVTranscoder
  | FlacTranscoder
  | VorbisTranscoder
  deriving DecidableEq, Repr

/-- The C++ sample types over which `RAWTranscoder::TranscodeRAWData` is
instantiated. -/
inductive SampleType where
  | uint8
  | int16
  | int32
  | float
  deriving DecidableEq, Repr

/-- Encoded audio: `FEncodedAudioStruct`. -/
structure FEncodedAudioStruct where
  AudioData : Bytes
  AudioFormat : EAudioFormat
  deriving DecidableEq, Repr

/-- A value of the C++ type `float`, IEEE 754 single precision: a finite
value `mantissa × 2 ^ exponent` with its sign, an infinity, or a NaN.  A
finite value is kept in the form the format stores: mantissa from `2 ^ 23` to
`2 ^ 24 - 1` and exponent from -149 to 104 for a normal number, a smaller
mantissa and exponent -149 for a subnormal number and for the two zeros. -/
inductive CFloat where
  | finite (negative : Bool) (mantissa : Nat) (exponent : Int)
  | infinite (negative : Bool)
  | nan
  deriving DecidableEq, Repr

/-- The `float` 0. -/
def CFloat.zero : CFloat :=
  CFloat.finite false 0 (-149)

/-- Basic sound wave information: `FDecodedAudioStruct::SoundWaveBasicInfo`. -/
structure FSoundWaveBasicStruct where
  NumOfChannels : Int
  SampleRate : Int
  Duration : CFloat
  deriving DecidableEq, Repr

/-- PCM payload: `FDecodedAudioStruct::PCMInfo`. -/
structure FPCMStruct where
  PCMData : Bytes
  PCMNumOfFrames : Int
  deriving DecidableEq, Repr

/-- Decoded audio: `FDecodedAudioStruct`. -/
structure FDecodedAudioStruct where
  SoundWaveBasicInfo : FSoundWaveBasicStruct
  PCMInfo : FPCMStruct
  deriving DecidableEq, Repr

/-- Sample layout of an encoded WAV file, `EWAVEncodingFormat`. -/
inductive EWAVEncodingFormat where
  | FORMAT_PCM
  | FORMAT_IEEE_FLOAT
  deriving DecidableEq, Repr

/-- Encoding format handed to the WAV encoder: `FWAVEncodingFormat`. -/
structure FWAVEncodingFormat where
  Format : EWAVEncodingFormat
  BitsPerSample : Nat
  deriving DecidableEq, Repr

/-- The engine's `EDecompressionType`, as far as the library sets it. -/
inductive EDecompressionType where
  | DTYPE_Setup
  | DTYPE_Native
  | DTYPE_Streaming
  deriving DecidableEq, Repr

/-- The fields of `URuntimeSoundWave` that the import writes. -/
structure URuntimeSoundWave where
  Duration : CFloat
  SampleRate : Int
  NumChannels : Int
  bIsAmbisonics : Bool
  bProcedural : Bool
  DecompressionType : EDecompressionType
  RawPCMData : Bytes
  RawData : Bytes
  bPrecacheDone : Bool
  deriving DecidableEq, Repr

/-- A default-constructed `FDecodedAudioStruct`. -/
def FDecodedAudioStruct.empty : FDecodedAudioStruct :=
  { SoundWaveBasicInfo := { NumOfChannels := 0, SampleRate := 0, Duration := CFloat.zero },
    PCMInfo := { PCMData := [], PCMNumOfFrames := 0 } }

/-- A default-constructed `FEncodedAudioStruct`. -/
def FEncodedAudioStruct.empty : FEncodedAudioStruct :=
  { AudioData := [], AudioFormat := EAudioFormat.Invalid }

/-- Everything the library calls but does not define.

* `CheckAudioFormat t data` is `t::CheckAudioFormat(AudioData, AudioDataSize)`.
* `Decode t enc dec` is `t::Decode(EncodedAudioInfo, DecodedAudioInfo)`: the
  returned flag and the value of `DecodedAudioInfo` after the call.
* `WAVEncode` and `VorbisEncode` are `WAVTranscoder::Encode` and
  `VorbisTranscoder::Encode`: the flag and `EncodedAudioInfo` after the call.
* `CheckAndFixWavDurationErrors data`: the flag and the buffer after the call
  (the buffer is passed by reference).
* `TranscodeRAWData a b` is `RAWTranscoder::TranscodeRAWData<a, b>` on byte
  arrays: the value assigned to the output array.
* `TranscodeRAWDataToPointer a b data size` is the overload of
  `RAWTranscoder::TranscodeRAWData<a, b>` on a pointer and a size: the output
  pointer after the call (`none` for `nullptr`, otherwise the bytes it points
  to) and the output size after the call.
* `LoadFileToArray` is `FFileHelper::LoadFileToArray`: `none` when the read
  fails.
* `CreateImportedSoundWave` is the virtual factory: `none` for `nullptr`. -/
structure Env where
  CheckAudioFormat : Transcoder → Bytes → Bool
  Decode : Transcoder → FEncodedAudioStruct → FDecodedAudioStruct → Bool × FDecodedAudioStruct
  WAVEncode : FDecodedAudioStruct → FEncodedAudioStruct → FWAVEncodingFormat → Bool × FEncodedAudioStruct
  VorbisEncode : FDecodedAudioStruct → FEncodedAudioStruct → Nat → Bool × FEncodedAudioStruct
  CheckAndFixWavDurationErrors : Bytes → Bool × Bytes
  TranscodeRAWData : SampleType → SampleType → Bytes → Bytes
  TranscodeRAWDataToPointer : SampleType → SampleType → Bytes → Int → Option Bytes × Int
  FileExists : String → Bool
  LoadFileToArray : String → Option Bytes
  CreateImportedSoundWave : Option URuntimeSoundWave

/-- Calls recorded during a run, in program order.  `Malloc` and `Memcpy`
are recorded where the size requested and the size copied are two different
expressions of the source (the Int16 case of `ImportAudioFromRAWBuffer`). -/
inductive Event where
  | OnProgress_Internal (Percentage : Int)
  | OnResult_Internal (SoundWaveRef : Option URuntimeSoundWave) (Status : ETranscodingStatus)
  | FileExists (FilePath : String)
  | LoadFileToArray (FilePath : String)
  | CheckAndFixWavDurationErrors (AudioData : Bytes)
  | GetAudioFormat (AudioData : Bytes)
  | Decode (t : Transcoder) (EncodedAudioInfo : FEncodedAudioStruct)
  | Encode (t : Transcoder) (DecodedAudioInfo : FDecodedAudioStruct)
  | CreateImportedSoundWave
  | Malloc (Count : Int)
  | Memcpy (Count : Int)
  deriving DecidableEq, Repr

/-! ## Format sniffing -/

/-- Whether a character separates path components. -/
def isSlashOrBackslash (c : Char) : Bool :=
  c == '/' || c == '\\'

/-- The engine's `FPaths::GetCleanFilename`: the path without trailing
separators, cut after its last remaining separator. -/
def FPaths.GetCleanFilename (InPath : String) : List Char :=
  ((InPath.data.reverse.dropWhile isSlashOrBackslash).takeWhile
    (fun c => !isSlashOrBackslash c)).reverse

/-- The engine's `FPaths::GetExtension(Path, false)`: the text after the last
dot of the clean file name, empty when that name has no dot. -/
def FPaths.GetExtension (InPath : String) : String :=
  let Filename := FPaths.GetCleanFilename InPath
  if Filename.contains '.' then
    String.mk (Filename.reverse.takeWhile (fun c => c != '.')).reverse
  else ""

/-- The engine's `FString::ToLower`, character by character. -/
def FString.ToLower (s : String) : String :=
  String.mk (s.data.map Char.toLower)

/-- `URuntimeAudioImporterLibrary::GetAudioFormat(const FString& FilePath)`.
The extension is lower-cased before it is compared with the lower-case
literals, so the comparisons are plain equalities. -/
def GetAudioFormatByPath (FilePath : String) : EAudioFormat :=
  let Extension := FString.ToLower (FPaths.GetExtension FilePath)
  if Extension = "mp3" then EAudioFormat.Mp3
  else if Extension = "wav" ∨ Extension = "wave" then EAudioFormat.Wav
  else if Extension = "flac" then EAudioFormat.Flac
  else if Extension = "ogg" ∨ Extension = "oga" ∨ Extension = "sb0" then EAudioFormat.OggVorbis
  else EAudioFormat.Invalid

/-- `URuntimeAudioImporterLibrary::GetAudioFormat(const uint8*, int32)`. -/
def GetAudioFormat (env : Env) (AudioData : Bytes) : EAudioFormat :=
  if env.CheckAudioFormat Transcoder.MP3Transcoder AudioData then EAudioFormat.Mp3
  else if env.CheckAudioFormat Transcoder.WAVTranscoder AudioData then EAudioFormat.Wav
  else if env.CheckAudioFormat Transcoder.FlacTranscoder AudioData then EAudioFormat.Flac
  else if env.CheckAudioFormat Transcoder.VorbisTranscoder AudioData then EAudioFormat.OggVorbis
  else EAudioFormat.Invalid

/-- The container format a backend handles. -/
def Transcoder.format : Transcoder → EAudioFormat
  | Transcoder.MP3Transcoder => EAudioFormat.Mp3
  | Transcoder.WAVTranscoder => EAudioFormat.Wav
  | Transcoder.FlacTranscoder => EAudioFormat.Flac
  | Transcoder.VorbisTranscoder => EAudioFormat.OggVorbis

/-- The sniffer as the specification words it: the backends are tried in the
order Mp3, Wav, Flac, OggVorbis, the first one that accepts wins, and no match
is Invalid. -/
def sniffFirstMatch (env : Env) (AudioData : Bytes) : EAudioFormat :=
  match [Transcoder.MP3Transcoder, Transcoder.WAVTranscoder, Transcoder.FlacTranscoder,
      Transcoder.VorbisTranscoder].find? (fun t => env.CheckAudioFormat t AudioData) with
  | some t => t.format
  | none => EAudioFormat.Invalid

/-! ## Dispatcher -/

/-- What `DecodeAudioData` leaves behind: its return value, both reference
parameters after the call, and the calls it made. -/
structure DecodeOutcome where
  ret : Bool
  EncodedAudioInfo : FEncodedAudioStruct
  DecodedAudioInfo : FDecodedAudioStruct
  calls : List Event

/-- One `case` of the switch in `DecodeAudioData`: call the backend, return
its flag. -/
def decodeWith (env : Env) (t : Transcoder) (enc : FEncodedAudioStruct)
    (dec : FDecodedAudioStruct) (sniffed : List Event) : DecodeOutcome :=
  let r := env.Decode t enc dec
  { ret := r.1, EncodedAudioInfo := enc, DecodedAudioInfo := r.2,
    calls := sniffed ++ [Event.Decode t enc] }

/-- `URuntimeAudioImporterLibrary::DecodeAudioData`. -/
def DecodeAudioData (env : Env) (EncodedAudioInfo : FEncodedAudioStruct)
    (DecodedAudioInfo : FDecodedAudioStruct) : DecodeOutcome :=
  let sniffed : List Event :=
    if EncodedAudioInfo.AudioFormat = EAudioFormat.Auto then
      [Event.GetAudioFormat EncodedAudioInfo.AudioData] else []
  let enc : FEncodedAudioStruct :=
    if EncodedAudioInfo.AudioFormat = EAudioFormat.Auto then
      { EncodedAudioInfo with AudioFormat := GetAudioFormat env EncodedAudioInfo.AudioData }
    else EncodedAudioInfo
  match enc.AudioFormat with
  | EAudioFormat.Mp3 => decodeWith env Transcoder.MP3Transcoder enc DecodedAudioInfo sniffed
  | EAudioFormat.Wav => decodeWith env Transcoder.WAVTranscoder enc DecodedAudioInfo sniffed
  | EAudioFormat.Flac => decodeWith env Transcoder.FlacTranscoder enc DecodedAudioInfo sniffed
  | EAudioFormat.OggVorbis => decodeWith env Transcoder.VorbisTranscoder enc DecodedAudioInfo sniffed
  | _ =>
    { ret := false, EncodedAudioInfo := enc, DecodedAudioInfo := DecodedAudioInfo,
      calls := sniffed }

/-- What `EncodeAudioData` leaves behind: its return value, the reference
parameter after the call, and the calls it made. -/
structure EncodeOutcome where
  ret : Bool
  EncodedAudioInfo : FEncodedAudioStruct
  calls : List Event

/-- `URuntimeAudioImporterLibrary::EncodeAudioData`. -/
def EncodeAudioData (env : Env) (DecodedAudioInfo : FDecodedAudioStruct)
    (EncodedAudioInfo : FEncodedAudioStruct) (Quality : Nat) : EncodeOutcome :=
  if EncodedAudioInfo.AudioFormat = EAudioFormat.Auto
      ∨ EncodedAudioInfo.AudioFormat = EAudioFormat.Invalid then
    { ret := false, EncodedAudioInfo := EncodedAudioInfo, calls := [] }
  else
    match EncodedAudioInfo.AudioFormat with
    | EAudioFormat.Mp3 =>
      -- logs "MP3 format is not currently supported for encoding", then `break`
      { ret := true, EncodedAudioInfo := EncodedAudioInfo, calls := [] }
    | EAudioFormat.Wav =>
      let r := env.WAVEncode DecodedAudioInfo EncodedAudioInfo
        { Format := EWAVEncodingFormat.FORMAT_IEEE_FLOAT, BitsPerSample := 32 }
      { ret := r.1, EncodedAudioInfo := r.2,
        calls := [Event.Encode Transcoder.WAVTranscoder DecodedAudioInfo] }
    | EAudioFormat.Flac =>
      -- logs "Flac format is not currently supported for encoding", then `break`
      { ret := true, EncodedAudioInfo := EncodedAudioInfo, calls := [] }
    | EAudioFormat.OggVorbis =>
      let r := env.VorbisEncode DecodedAudioInfo EncodedAudioInfo Quality
      { ret := r.1, EncodedAudioInfo := r.2,
        calls := [Event.Encode Transcoder.VorbisTranscoder DecodedAudioInfo] }
    | _ => { ret := false, EncodedAudioInfo := EncodedAudioInfo, calls := [] }

/-! ## Import pipeline -/

/-- `URuntimeAudioImporterLibrary::FillPCMBuffer`. -/
def FillPCMBuffer (SoundWaveRef : URuntimeSoundWave) (DecodedAudioInfo : FDecodedAudioStruct) :
    URuntimeSoundWave :=
  { SoundWaveRef with
    DecompressionType := EDecompressionType.DTYPE_Native,
    RawPCMData := DecodedAudioInfo.PCMInfo.PCMData,
    bPrecacheDone := true }

/-- What `FillRawWaveBuffer` leaves behind: its return value, the sound wave
after the call, and the calls it made. -/
structure FillOutcome where
  ret : Bool
  SoundWaveRef : URuntimeSoundWave
  calls : List Event

/-- `URuntimeAudioImporterLibrary::FillRawWaveBuffer`. -/
def FillRawWaveBuffer (env : Env) (SoundWaveRef : URuntimeSoundWave)
    (DecodedAudioInfo : FDecodedAudioStruct) : FillOutcome :=
  let sw := { SoundWaveRef with DecompressionType := EDecompressionType.DTYPE_Streaming }
  let r := env.WAVEncode DecodedAudioInfo FEncodedAudioStruct.empty
    { Format := EWAVEncodingFormat.FORMAT_PCM, BitsPerSample := 16 }
  if !r.1 then
    { ret := false, SoundWaveRef := sw,
      calls := [Event.Encode Transcoder.WAVTranscoder DecodedAudioInfo] }
  else
    { ret := true,
      SoundWaveRef := { sw with RawData := r.2.AudioData, bPrecacheDone := true },
      calls := [Event.Encode Transcoder.WAVTranscoder DecodedAudioInfo] }

/-- `URuntimeAudioImporterLibrary::ImportAudioFromDecodedInfo`, the command
run on the audio thread included. -/
def ImportAudioFromDecodedInfo (env : Env) (DecodedAudioInfo : FDecodedAudioStruct)
    (bFillPCMBuffer : Bool) : List Event :=
  match env.CreateImportedSoundWave with
  | none =>
    [Event.CreateImportedSoundWave,
      Event.OnResult_Internal none ETranscodingStatus.SoundWaveDeclarationError]
  | some SoundWaveRef =>
    let sw : URuntimeSoundWave :=
      { SoundWaveRef with
        Duration := DecodedAudioInfo.SoundWaveBasicInfo.Duration,
        SampleRate := DecodedAudioInfo.SoundWaveBasicInfo.SampleRate,
        NumChannels := DecodedAudioInfo.SoundWaveBasicInfo.NumOfChannels,
        bIsAmbisonics :=
          if DecodedAudioInfo.SoundWaveBasicInfo.NumOfChannels = 4 then true
          else SoundWaveRef.bIsAmbisonics,
        bProcedural := false }
    [Event.CreateImportedSoundWave, Event.OnProgress_Internal 70, Event.OnProgress_Internal 75]
      ++ (if bFillPCMBuffer then
            [Event.OnProgress_Internal 95, Event.OnProgress_Internal 100,
              Event.OnResult_Internal (some (FillPCMBuffer sw DecodedAudioInfo))
                ETranscodingStatus.SuccessfulImport]
          else
            let r := FillRawWaveBuffer env sw DecodedAudioInfo
            r.calls
              ++ (if !r.ret then
                    [Event.OnResult_Internal none ETranscodingStatus.InvalidAudioFormat]
                  else [])
              ++ [Event.OnProgress_Internal 95, Event.OnProgress_Internal 100,
                  Event.OnResult_Internal (some r.SoundWaveRef)
                    ETranscodingStatus.SuccessfulImport])

/-- The task that `ImportAudioFromBuffer` enqueues on a background thread,
with the task it enqueues in turn on the game thread. -/
def ImportAudioFromBuffer.task (env : Env) (AudioData : Bytes) (AudioFormat : EAudioFormat)
    (bFillPCMBuffer : Bool) : List Event :=
  if AudioFormat = EAudioFormat.Invalid then
    [Event.OnProgress_Internal 5,
      Event.OnResult_Internal none ETranscodingStatus.InvalidAudioFormat]
  else
    let EncodedAudioInfo : FEncodedAudioStruct :=
      { AudioData := AudioData, AudioFormat := AudioFormat }
    let d := DecodeAudioData env EncodedAudioInfo FDecodedAudioStruct.empty
    if !d.ret then
      [Event.OnProgress_Internal 5, Event.OnProgress_Internal 10] ++ d.calls
        ++ [Event.OnResult_Internal none ETranscodingStatus.FailedToReadAudioDataArray]
    else
      [Event.OnProgress_Internal 5, Event.OnProgress_Internal 10] ++ d.calls
        ++ [Event.OnProgress_Internal 65]
        ++ ImportAudioFromDecodedInfo env d.DecodedAudioInfo bFillPCMBuffer

/-- `URuntimeAudioImporterLibrary::ImportAudioFromBuffer`. -/
def ImportAudioFromBuffer (env : Env) (AudioData : Bytes) (AudioFormat : EAudioFormat)
    (bFillPCMBuffer : Bool) : List Event :=
  if AudioFormat = EAudioFormat.Wav then
    let r := env.CheckAndFixWavDurationErrors AudioData
    if !r.1 then
      [Event.CheckAndFixWavDurationErrors AudioData]
    else
      -- the tag is Wav, so the `Auto` branch is skipped
      [Event.CheckAndFixWavDurationErrors AudioData]
        ++ ImportAudioFromBuffer.task env r.2 AudioFormat bFillPCMBuffer
  else if AudioFormat = EAudioFormat.Auto then
    [Event.GetAudioFormat AudioData]
      ++ ImportAudioFromBuffer.task env AudioData (GetAudioFormat env AudioData) bFillPCMBuffer
  else
    ImportAudioFromBuffer.task env AudioData AudioFormat bFillPCMBuffer

/-- The engine's `TArray::RemoveAt(Index, Count)`; `none` when the range is
not inside the array, where the engine gives no defined result. -/
def TArray.RemoveAt (A : Bytes) (Index Count : Int) : Option Bytes :=
  if 0 ≤ Index ∧ 0 ≤ Count ∧ Index + Count ≤ A.length then
    some (A.take Index.toNat ++ A.drop (Index + Count).toNat)
  else none

/-- The ways a call of `LoadAudioFileToArray` can end. -/
inductive LoadOutcome where
  | ReturnsFalse
  | ReturnsTrue (AudioData : Bytes)
  | RemoveAtOutOfRange (Index : Int)
  deriving DecidableEq, Repr

/-- `LoadAudioFileToArray`. -/
def LoadAudioFileToArray (env : Env) (FilePath : String) : LoadOutcome :=
  match env.LoadFileToArray FilePath with
  | none => LoadOutcome.ReturnsFalse
  | some AudioData =>
    match TArray.RemoveAt AudioData ((AudioData.length : Int) - 2) 2 with
    | some trimmed => LoadOutcome.ReturnsTrue trimmed
    | none => LoadOutcome.RemoveAtOutOfRange ((AudioData.length : Int) - 2)

/-- `URuntimeAudioImporterLibrary::ImportAudioFromFile`; `none` when the run
reaches the out-of-range `RemoveAt`. -/
def ImportAudioFromFile (env : Env) (FilePath : String) (Format : EAudioFormat)
    (bFillPCMBuffer : Bool) : Option (List Event) :=
  if !env.FileExists FilePath then
    some [Event.FileExists FilePath,
      Event.OnResult_Internal none ETranscodingStatus.AudioDoesNotExist]
  else
    let Format1 := if Format = EAudioFormat.Auto then GetAudioFormatByPath FilePath else Format
    let Format2 := if Format1 = EAudioFormat.Invalid then EAudioFormat.Auto else Format1
    match LoadAudioFileToArray env FilePath with
    | LoadOutcome.RemoveAtOutOfRange _ => none
    | LoadOutcome.ReturnsFalse =>
      some [Event.FileExists FilePath, Event.LoadFileToArray FilePath,
        Event.OnResult_Internal none ETranscodingStatus.LoadFileToArrayError]
    | LoadOutcome.ReturnsTrue AudioBuffer =>
      some ([Event.FileExists FilePath, Event.LoadFileToArray FilePath]
        ++ ImportAudioFromBuffer env AudioBuffer Format2 bFillPCMBuffer)

/-! ## Reading a run -/

/-- The statuses passed to `OnResult_Internal`, in order. -/
def results : List Event → List ETranscodingStatus
  | [] => []
  | Event.OnResult_Internal _ Status :: rest => Status :: results rest
  | _ :: rest => results rest

/-- The backends whose `Decode` was invoked, in order. -/
def decodedBy : List Event → List Transcoder
  | [] => []
  | Event.Decode t _ :: rest => t :: decodedBy rest
  | _ :: rest => decodedBy rest

/-- The events that follow the first failure result (a result whose status
is not `SuccessfulImport`); empty when no failure result was emitted. -/
def afterFailure : List Event → List Event
  | [] => []
  | Event.OnResult_Internal _ Status :: rest =>
    if Status = ETranscodingStatus.SuccessfulImport then afterFailure rest else rest
  | _ :: rest => afterFailure rest

/-- Whether `CheckAndFixWavDurationErrors` was called before every call of
the WAV backend's `Decode`; `repaired` tells whether it has been called so
far. -/
def repairedBeforeWavDecode (repaired : Bool) : List Event → Bool
  | [] => true
  | Event.CheckAndFixWavDurationErrors _ :: rest => repairedBeforeWavDecode true rest
  | Event.Decode Transcoder.WAVTranscoder _ :: rest =>
    repaired && repairedBeforeWavDecode repaired rest
  | _ :: rest => repairedBeforeWavDecode repaired rest

/-- The percentages passed to `OnProgress_Internal`, in order. -/
def progressValues : List Event → List Int
  | [] => []
  | Event.OnProgress_Internal Percentage :: rest => Percentage :: progressValues rest
  | _ :: rest => progressValues rest

/-- The buffers on which `CheckAndFixWavDurationErrors` was called, in
order. -/
def repairedBuffers : List Event → List Bytes
  | [] => []
  | Event.CheckAndFixWavDurationErrors AudioData :: rest => AudioData :: repairedBuffers rest
  | _ :: rest => repairedBuffers rest

/-- The backend that decodes a format tag; none for `Auto` and `Invalid`. -/
def backendOf : EAudioFormat → Option Transcoder
  | EAudioFormat.Mp3 => some Transcoder.MP3Transcoder
  | EAudioFormat.Wav => some Transcoder.WAVTranscoder
  | EAudioFormat.Flac => some Transcoder.FlacTranscoder
  | EAudioFormat.OggVorbis => some Transcoder.VorbisTranscoder
  | _ => none

/-- Position of a backend in the sniffing order. -/
def Transcoder.rank : Transcoder → Nat
  | Transcoder.MP3Transcoder => 0
  | Transcoder.WAVTranscoder => 1
  | Transcoder.FlacTranscoder => 2
  | Transcoder.VorbisTranscoder => 3

/-! ## RAW sample converter -/

/-- The C++ sample type of a RAW format. -/
def ERAWAudioFormat.sampleType : ERAWAudioFormat → SampleType
  | ERAWAudioFormat.Int16 => SampleType.int16
  | ERAWAudioFormat.Int32 => SampleType.int32
  | ERAWAudioFormat.UInt8 => SampleType.uint8
  | ERAWAudioFormat.Float32 => SampleType.float

/-- Width of one sample in bytes, `sizeof` of the sample type. -/
def ERAWAudioFormat.sampleWidth : ERAWAudioFormat → Nat
  | ERAWAudioFormat.Int16 => 2
  | ERAWAudioFormat.Int32 => 4
  | ERAWAudioFormat.UInt8 => 1
  | ERAWAudioFormat.Float32 => 4

/-- `URuntimeAudioImporterLibrary::TranscodeRAWDataFromBuffer`: the value of
`RAWData_To` after the call. -/
def TranscodeRAWDataFromBuffer (env : Env) (RAWData_From : Bytes) (RAWFrom RAWTo : ERAWAudioFormat) :
    Bytes :=
  let IntermediateRAWBuffer : Bytes :=
    match RAWFrom with
    | ERAWAudioFormat.Int16 =>
      env.TranscodeRAWData SampleType.int16 SampleType.uint8 RAWData_From
    | ERAWAudioFormat.Int32 =>
      env.TranscodeRAWData SampleType.int32 SampleType.uint8 RAWData_From
    | ERAWAudioFormat.UInt8 => RAWData_From
    | ERAWAudioFormat.Float32 =>
      env.TranscodeRAWData SampleType.float SampleType.uint8 RAWData_From
  match RAWTo with
  | ERAWAudioFormat.Int16 =>
    env.TranscodeRAWData SampleType.uint8 SampleType.int16 IntermediateRAWBuffer
  | ERAWAudioFormat.Int32 =>
    env.TranscodeRAWData SampleType.uint8 SampleType.int32 IntermediateRAWBuffer
  | ERAWAudioFormat.UInt8 => IntermediateRAWBuffer
  | ERAWAudioFormat.Float32 =>
    env.TranscodeRAWData SampleType.uint8 SampleType.float IntermediateRAWBuffer

/-- The conversion as the specification words it: through a signed 16-bit
intermediate. -/
def transcodeViaInt16 (env : Env) (x : Bytes) (RAWFrom RAWTo : ERAWAudioFormat) : Bytes :=
  env.TranscodeRAWData SampleType.int16 RAWTo.sampleType
    (env.TranscodeRAWData RAWFrom.sampleType SampleType.int16 x)

/-- One leg of the conversion through the unsigned 8-bit intermediate: the
converter for the pair, or a plain copy when both sides are unsigned 8-bit. -/
def convertOrCopy (env : Env) (a b : SampleType) (x : Bytes) : Bytes :=
  if a = b then x else env.TranscodeRAWData a b x

/-- The conversion through an unsigned 8-bit intermediate. -/
def transcodeViaUInt8 (env : Env) (x : Bytes) (RAWFrom RAWTo : ERAWAudioFormat) : Bytes :=
  convertOrCopy env SampleType.uint8 RAWTo.sampleType
    (convertOrCopy env RAWFrom.sampleType SampleType.uint8 x)

/-- Little-endian samples of one, two or four bytes; trailing bytes that do
not fill a sample are dropped. -/
def readSamples : Nat → Bytes → List Nat
  | 1, b :: rest => b :: readSamples 1 rest
  | 2, b0 :: b1 :: rest => (b0 + 256 * b1) :: readSamples 2 rest
  | 4, b0 :: b1 :: b2 :: b3 :: rest =>
    (b0 + 256 * b1 + 65536 * b2 + 16777216 * b3) :: readSamples 4 rest
  | _, _ => []

/-- The little-endian bytes of one sample of `w` bytes. -/
def writeSample (w : Nat) (n : Nat) : Bytes :=
  (List.range w).map (fun i => n / 256 ^ i % 256)

/-- Width in bytes of a sample type. -/
def SampleType.width : SampleType → Nat
  | SampleType.uint8 => 1
  | SampleType.int16 => 2
  | SampleType.int32 => 4
  | SampleType.float => 4

/-- The value of a stored integer sample: unsigned for `uint8`, two's
complement otherwise. -/
def SampleType.value (t : SampleType) (n : Nat) : Int :=
  match t with
  | SampleType.uint8 => n
  | _ => if n < 2 ^ (8 * t.width - 1) then n else (n : Int) - 2 ^ (8 * t.width)

/-- The stored form of an integer sample value. -/
def SampleType.store (t : SampleType) (v : Int) : Nat :=
  (v % 2 ^ (8 * t.width)).toNat

/-- Modelled from the spec: the per-sample rules of section 4.1 that take an
integer sample to the signed 16-bit intermediate (`(byte - 128) << 8` for
UInt8, arithmetic right shift by 16 for Int32). -/
def SampleType.toInt16 (t : SampleType) (v : Int) : Int :=
  match t with
  | SampleType.uint8 => (v - 128) * 256
  | SampleType.int32 => v / 65536
  | _ => v

/-- Modelled from the spec: the per-sample rules of section 4.1 that take the
signed 16-bit intermediate to an integer sample, the inverses of
`SampleType.toInt16` (shift by 8 with the +128 offset for UInt8, left shift by
16 for Int32). -/
def SampleType.ofInt16 (t : SampleType) (s : Int) : Int :=
  match t with
  | SampleType.uint8 => s / 256 + 128
  | SampleType.int32 => s * 65536
  | _ => s

/-- Modelled from the spec: `RAWTranscoder::TranscodeRAWData<a, b>`, whose
header `Transcoders/RAWTranscoder.h` is not among the sources, for the integer
sample types, sample by sample after section 4.1; a pair of equal types is a
copy.  Float samples are outside this model: a pair with `float` gives the
empty array, and nothing below evaluates such a pair. -/
def specTranscodeRAWData (a b : SampleType) (x : Bytes) : Bytes :=
  if a = SampleType.float ∨ b = SampleType.float then []
  else if a = b then x
  else
    ((readSamples a.width x).map
      (fun n => writeSample b.width (b.store (b.ofInt16 (a.toInt16 (a.value n)))))).flatten

/-- The two little-endian bytes of a 16-bit sample stored as `i`. -/
def twoBytes (i : Nat) : Bytes := [i % 256, i / 256]

/-! ## A concrete environment for running the pipeline -/

/-- Whether `data` starts with the bytes `magic`. -/
def startsWith (magic data : Bytes) : Bool :=
  data.take magic.length == magic

/-- A decoded one-frame mono clip. -/
def oneFrame : FDecodedAudioStruct :=
  { SoundWaveBasicInfo := { NumOfChannels := 1, SampleRate := 44100, Duration := CFloat.zero },
    PCMInfo := { PCMData := [0, 0], PCMNumOfFrames := 1 } }

/-- A freshly constructed sound wave. -/
def blankWave : URuntimeSoundWave :=
  { Duration := CFloat.zero, SampleRate := 0, NumChannels := 0, bIsAmbisonics := false,
    bProcedural := true, DecompressionType := EDecompressionType.DTYPE_Setup,
    RawPCMData := [], RawData := [], bPrecacheDone := false }

/-- The first bytes of an Ogg stream, `OggS`, followed by two zero bytes. -/
def oggBytes : Bytes := [79, 103, 103, 83, 0, 0]

/-- The first bytes of a RIFF file, `RIFF`, followed by two zero bytes. -/
def riffBytes : Bytes := [82, 73, 70, 70, 0, 0]

/-- An instance of `Env` for concrete runs.  A backend accepts a buffer that
starts with its magic number (`ID3`, `RIFF`, `fLaC`, `OggS`) and decodes what
it accepts to `oneFrame`; the WAV repair pass rejects what is not RIFF and
changes nothing otherwise; both encoders succeed with an empty payload; the
RAW converters are `specTranscodeRAWData`, the one on a pointer never giving
`nullptr`; the file system holds `song.mp3`
and `song.wav`, both with the bytes `oggBytes` and two trailing bytes, and
`clip.dat` with `riffBytes` and two trailing bytes. -/
def demoEnv : Env where
  CheckAudioFormat t data :=
    match t with
    | Transcoder.MP3Transcoder => startsWith [73, 68, 51] data
    | Transcoder.WAVTranscoder => startsWith [82, 73, 70, 70] data
    | Transcoder.FlacTranscoder => startsWith [102, 76, 97, 67] data
    | Transcoder.VorbisTranscoder => startsWith [79, 103, 103, 83] data
  Decode t enc dec :=
    let accepted :=
      match t with
      | Transcoder.MP3Transcoder => startsWith [73, 68, 51] enc.AudioData
      | Transcoder.WAVTranscoder => startsWith [82, 73, 70, 70] enc.AudioData
      | Transcoder.FlacTranscoder => startsWith [102, 76, 97, 67] enc.AudioData
      | Transcoder.VorbisTranscoder => startsWith [79, 103, 103, 83] enc.AudioData
    if accepted then (true, oneFrame) else (false, dec)
  WAVEncode _ enc _ := (true, { enc with AudioFormat := EAudioFormat.Wav })
  VorbisEncode _ enc _ := (true, { enc with AudioFormat := EAudioFormat.OggVorbis })
  CheckAndFixWavDurationErrors data := (startsWith [82, 73, 70, 70] data, data)
  TranscodeRAWData := specTranscodeRAWData
  TranscodeRAWDataToPointer a b data size :=
    (some (specTranscodeRAWData a b (data.take size.toNat)),
      (specTranscodeRAWData a b (data.take size.toNat)).length)
  FileExists path := path == "song.mp3" || path == "song.wav" || path == "clip.dat"
  LoadFileToArray path :=
    if path == "song.mp3" || path == "song.wav" then some (oggBytes ++ [0, 0])
    else if path == "clip.dat" then some (riffBytes ++ [0, 0])
    else none
  CreateImportedSoundWave := some blankWave

/-- The environment `demoEnv` with a WAV encoder that fails. -/
def demoEnvEncodeFails : Env :=
  { demoEnv with WAVEncode := fun _ enc _ => (false, enc) }

/-- The environment `demoEnv` with a WAV repair pass that accepts every
buffer and changes nothing. -/
def demoEnvLenient : Env :=
  { demoEnv with CheckAndFixWavDurationErrors := fun data => (true, data) }

/-- The environment `demoEnv` with a file system whose reads fail. -/
def demoEnvUnreadable : Env :=
  { demoEnv with LoadFileToArray := fun _ => none }

/-! ## RAW import -/

/-- An `int32` converted to `size_t`, as in the arithmetic of an `int32` with
a `sizeof`. -/
def toSizeT (v : Int) : Nat :=
  (v % 2 ^ 64).toNat

/-- The position of the leading binary digit of `n`, by halving; with `fuel`
at least `n` the count is complete. -/
def log2Fuel : Nat → Nat → Nat
  | 0, _ => 0
  | fuel + 1, n => if n < 2 then 0 else log2Fuel fuel (n / 2) + 1

/-- The position of the leading binary digit of `n`: the largest `e` with
`2 ^ e ≤ n`, for `n` above zero. -/
def floorLog2 (n : Nat) : Nat :=
  log2Fuel n n

/-- The largest `e` with `2 ^ e ≤ n / d`, for `n` and `d` above zero: the
difference of the leading digit positions, or one less. -/
def floorLog2Ratio (n d : Nat) : Int :=
  let e : Int := (floorLog2 n : Int) - (floorLog2 d : Int)
  if d * 2 ^ e.toNat ≤ n * 2 ^ (-e).toNat then e else e - 1

/-- The integer nearest to `N / D`, the even one of the two when `N / D` lies
half way. -/
def roundHalfEven (N D : Nat) : Nat :=
  if 2 * (N % D) < D then N / D
  else if D < 2 * (N % D) then N / D + 1
  else if N / D % 2 = 0 then N / D
  else N / D + 1

/-- The `float` nearest to the magnitude `n / d`, with the given sign, as
IEEE 754 rounds in its default mode (to nearest, ties to even): the quotient
is cut to 24 binary digits, to fewer below `2 ^ -126`, and becomes an infinity
from `2 ^ 128` on. -/
def CFloat.round (negative : Bool) (n d : Nat) : CFloat :=
  if n = 0 then CFloat.finite negative 0 (-149)
  else
    let k : Int := max (floorLog2Ratio n d) (-126) - 23
    let m := roundHalfEven (n * 2 ^ (-k).toNat) (d * 2 ^ k.toNat)
    if m = 0 then CFloat.finite negative 0 (-149)
    else if m = 2 ^ 24 then
      (if 104 < k + 1 then CFloat.infinite negative else CFloat.finite negative (2 ^ 23) (k + 1))
    else if 104 < k then CFloat.infinite negative
    else CFloat.finite negative m k

/-- The conversion `static_cast<float>` of an unsigned integer. -/
def CFloat.ofNat (n : Nat) : CFloat :=
  CFloat.round false n 1

/-- The conversion of a signed integer to `float`. -/
def CFloat.ofInt (v : Int) : CFloat :=
  CFloat.round (decide (v < 0)) v.natAbs 1

/-- The division of two `float`s: the rounded quotient of two finite values,
with the IEEE 754 results for a zero divisor, an infinity or a NaN. -/
def CFloat.div : CFloat → CFloat → CFloat
  | CFloat.nan, _ => CFloat.nan
  | _, CFloat.nan => CFloat.nan
  | CFloat.infinite _, CFloat.infinite _ => CFloat.nan
  | CFloat.infinite s, CFloat.finite t _ _ => CFloat.infinite (xor s t)
  | CFloat.finite s _ _, CFloat.infinite t => CFloat.finite (xor s t) 0 (-149)
  | CFloat.finite s ma ea, CFloat.finite t mb eb =>
    if mb = 0 then (if ma = 0 then CFloat.nan else CFloat.infinite (xor s t))
    else CFloat.round (xor s t) (ma * 2 ^ (ea - eb).toNat) (mb * 2 ^ (eb - ea).toNat)

/-- The decoded audio that `ImportAudioFromInt16Buffer` fills in.  `PCMData`
holds the bytes at the pointer, of which the view takes `PCMDataSize`; the
frame count is computed in `size_t` and stored in the unsigned 32-bit field
`PCMNumOfFrames`; the duration is the `float` division of the frame count,
converted to `float`, by the sample rate, converted to `float`. -/
def ImportAudioFromInt16Buffer.info (PCMData : Bytes) (PCMDataSize SampleRate NumOfChannels : Int) :
    FDecodedAudioStruct :=
  let PCMNumOfFrames : Nat := toSizeT PCMDataSize / 2 / toSizeT NumOfChannels % 2 ^ 32
  { SoundWaveBasicInfo :=
      { NumOfChannels := NumOfChannels,
        SampleRate := SampleRate,
        Duration := CFloat.div (CFloat.ofNat PCMNumOfFrames) (CFloat.ofInt SampleRate) },
    PCMInfo :=
      { PCMData := PCMData.take PCMDataSize.toNat, PCMNumOfFrames := (PCMNumOfFrames : Int) } }

/-- `URuntimeAudioImporterLibrary::ImportAudioFromInt16Buffer`; `none` when
`NumOfChannels` is zero, where the frame count is a division by zero. -/
def ImportAudioFromInt16Buffer (env : Env) (PCMData : Bytes) (PCMDataSize : Int)
    (bFillPCMBuffer : Bool) (SampleRate NumOfChannels : Int) : Option (List Event) :=
  if toSizeT NumOfChannels = 0 then none
  else
    some ([Event.OnProgress_Internal 50]
      ++ ImportAudioFromDecodedInfo env
          (ImportAudioFromInt16Buffer.info PCMData PCMDataSize SampleRate NumOfChannels)
          bFillPCMBuffer)

/-- What the `switch` of `ImportAudioFromRAWBuffer` leaves behind: the
pointer `PCMData` (`none` for `nullptr`, otherwise the bytes written there),
`PCMDataSize`, and the calls recorded. -/
structure TranscodeOutcome where
  PCMData : Option Bytes
  PCMDataSize : Int
  calls : List Event

/-- The `switch` of `ImportAudioFromRAWBuffer`.  In the Int16 case
`FMemory::Malloc` is called with the value `PCMDataSize` has at that point,
its initial value 0, `FMemory::Memcpy` copies `RAWDataSize` bytes, and
`PCMDataSize` is assigned afterwards; the run is followed as if the copy had
landed in the buffer. -/
def ImportAudioFromRAWBuffer.transcode (env : Env) (RAWBuffer : Bytes) (Format : ERAWAudioFormat) :
    TranscodeOutcome :=
  let RAWDataSize : Int := RAWBuffer.length
  let PCMDataSize : Int := 0
  match Format with
  | ERAWAudioFormat.Int16 =>
    { PCMData := some RAWBuffer, PCMDataSize := RAWDataSize,
      calls := [Event.Malloc PCMDataSize, Event.Memcpy RAWDataSize] }
  | ERAWAudioFormat.Int32 =>
    let r := env.TranscodeRAWDataToPointer SampleType.int32 SampleType.int16 RAWBuffer RAWDataSize
    { PCMData := r.1, PCMDataSize := r.2, calls := [] }
  | ERAWAudioFormat.UInt8 =>
    let r := env.TranscodeRAWDataToPointer SampleType.uint8 SampleType.int16 RAWBuffer RAWDataSize
    { PCMData := r.1, PCMDataSize := r.2, calls := [] }
  | ERAWAudioFormat.Float32 =>
    let r := env.TranscodeRAWDataToPointer SampleType.float SampleType.int16 RAWBuffer RAWDataSize
    { PCMData := r.1, PCMDataSize := r.2, calls := [] }

/-- `URuntimeAudioImporterLibrary::ImportAudioFromRAWBuffer`; `none` when the
run reaches the division by zero of `ImportAudioFromInt16Buffer`. -/
def ImportAudioFromRAWBuffer (env : Env) (RAWBuffer : Bytes) (Format : ERAWAudioFormat)
    (bFillPCMBuffer : Bool) (SampleRate NumOfChannels : Int) : Option (List Event) :=
  let t := ImportAudioFromRAWBuffer.transcode env RAWBuffer Format
  match t.PCMData with
  | none =>
    some (t.calls
      ++ [Event.OnResult_Internal none ETranscodingStatus.FailedToReadAudioDataArray])
  | some PCMData =>
    if t.PCMDataSize < 0 then
      some (t.calls
        ++ [Event.OnResult_Internal none ETranscodingStatus.FailedToReadAudioDataArray])
    else
      (ImportAudioFromInt16Buffer env PCMData t.PCMDataSize bFillPCMBuffer SampleRate
        NumOfChannels).map (fun rest => t.calls ++ rest)

/-- `URuntimeAudioImporterLibrary::ImportAudioFromRAWFile`; `none` when the
run reaches the out-of-range `RemoveAt` or the division by zero. -/
def ImportAudioFromRAWFile (env : Env) (FilePath : String) (Format : ERAWAudioFormat)
    (bFillPCMBuffer : Bool) (SampleRate NumOfChannels : Int) : Option (List Event) :=
  if !env.FileExists FilePath then
    some [Event.FileExists FilePath,
      Event.OnResult_Internal none ETranscodingStatus.AudioDoesNotExist]
  else
    match LoadAudioFileToArray env FilePath with
    | LoadOutcome.RemoveAtOutOfRange _ => none
    | LoadOutcome.ReturnsFalse =>
      some [Event.FileExists FilePath, Event.OnProgress_Internal 5,
        Event.LoadFileToArray FilePath,
        Event.OnResult_Internal none ETranscodingStatus.LoadFileToArrayError]
    | LoadOutcome.ReturnsTrue AudioBuffer =>
      (ImportAudioFromRAWBuffer env AudioBuffer Format bFillPCMBuffer SampleRate
        NumOfChannels).map
        (fun rest =>
          [Event.FileExists FilePath, Event.OnProgress_Internal 5,
            Event.LoadFileToArray FilePath, Event.OnProgress_Internal 35] ++ rest)

/-- The sizes passed to `FMemory::Malloc`, in order. -/
def mallocSizes : List Event → List Int
  | [] => []
  | Event.Malloc Count :: rest => Count :: mallocSizes rest
  | _ :: rest => mallocSizes rest

/-- The byte counts passed to `FMemory::Memcpy`, in order. -/
def memcpyCounts : List Event → List Int
  | [] => []
  | Event.Memcpy Count :: rest => Count :: memcpyCounts rest
  | _ :: rest => memcpyCounts rest

/-- The sound waves passed to `OnResult_Internal`, in order. -/
def resultWaves : List Event → List (Option URuntimeSoundWave)
  | [] => []
  | Event.OnResult_Internal SoundWaveRef _ :: rest => SoundWaveRef :: resultWaves rest
  | _ :: rest => resultWaves rest

/-- The last progress value of a run, `last` when it has none. -/
def lastProgress (last : Int) : List Event → Int
  | [] => last
  | Event.OnProgress_Internal Percentage :: rest => lastProgress Percentage rest
  | _ :: rest => lastProgress last rest

/-- Whether, with `last` the latest progress value so far, every progress
value of the run is at least the one before it and at most 100, and every
Success result comes when the latest progress value is 100. -/
def progressInOrder (last : Int) : List Event → Bool
  | [] => true
  | Event.OnProgress_Internal Percentage :: rest =>
    decide (last ≤ Percentage) && decide (Percentage ≤ 100) && progressInOrder Percentage rest
  | Event.OnResult_Internal _ Status :: rest =>
    (decide (Status ≠ ETranscodingStatus.SuccessfulImport) || decide (last = 100))
      && progressInOrder last rest
  | _ :: rest => progressInOrder last rest

/-! ## Seconds to text -/

/-- The character of a decimal digit. -/
def digitChar : Nat → Char
  | 0 => '0'
  | 1 => '1'
  | 2 => '2'
  | 3 => '3'
  | 4 => '4'
  | 5 => '5'
  | 6 => '6'
  | 7 => '7'
  | 8 => '8'
  | _ => '9'

/-- The decimal digits of `n`, most significant first; with `fuel` above the
number of digits of `n` the digits are complete. -/
def natDigits : Nat → Nat → List Char
  | 0, _ => []
  | fuel + 1, n => if n < 10 then [digitChar n] else natDigits fuel (n / 10) ++ [digitChar (n % 10)]

/-- The engine's `FString::FromInt`: the decimal text of an integer.  The
fuel `n + 1` is above the number of digits of `n`. -/
def FString.FromInt (Num : Int) : String :=
  if Num < 0 then String.mk ('-' :: natDigits (Num.natAbs + 1) Num.natAbs)
  else String.mk (natDigits (Num.toNat + 1) Num.toNat)

/-- `URuntimeAudioImporterLibrary::ConvertSecondsToString`; `/` and `%` of the
source round towards zero. -/
def ConvertSecondsToString (Seconds : Int) : String :=
  let NewHours := Seconds.tdiv 3600
  let FinalString1 :=
    if NewHours > 0 then
      (if NewHours < 10 then "0" ++ FString.FromInt NewHours else FString.FromInt NewHours) ++ ":"
    else ""
  let Seconds1 := Seconds.tmod 3600
  let NewMinutes := Seconds1.tdiv 60
  let FinalString2 :=
    FinalString1
      ++ ((if NewMinutes < 10 then "0" ++ FString.FromInt NewMinutes
            else FString.FromInt NewMinutes) ++ ":")
  let NewSeconds := Seconds1.tmod 60
  FinalString2
    ++ (if NewSeconds < 10 then "0" ++ FString.FromInt NewSeconds
        else FString.FromInt NewSeconds)

/-- A number below 100 written as two decimal digits, with a leading zero
below 10. -/
def twoDigits (n : Nat) : String :=
  String.mk [digitChar (n / 10), digitChar (n % 10)]

/-- The environment `demoEnv` with a file system in which every file holds
the single byte 7. -/
def demoEnvTinyFile : Env :=
  { demoEnv with LoadFileToArray := fun _ => some [7] }

/-- The progress values of a run are in order: each is at most the next, all
lie between 0 and 100, and every Success result comes right after the progress
value 100, with no other progress value in between. -/
def progressWellOrdered (tr : List Event) : Prop :=
  List.Pairwise (fun p q => p ≤ q) (progressValues tr)
    ∧ (∀ p ∈ progressValues tr, 0 ≤ p ∧ p ≤ 100)
    ∧ (∀ (pre post : List Event) (w : Option URuntimeSoundWave),
        tr = pre ++ Event.OnResult_Internal w ETranscodingStatus.SuccessfulImport :: post →
          (progressValues pre).getLast? = some 100)

/-! ## Reading a run: basic facts -/

/-- The results of a run in two parts are those of the parts, in order. -/
theorem results_append (a b : List Event) : results (a ++ b) = results a ++ results b := by
  induction a with
  | nil => rfl
  | cons e rest ih => cases e <;> simp [results, ih]

/-- The decode calls of a run in two parts are those of the parts, in order. -/
theorem decodedBy_append (a b : List Event) :
    decodedBy (a ++ b) = decodedBy a ++ decodedBy b := by
  induction a with
  | nil => rfl
  | cons e rest ih => cases e <;> simp [decodedBy, ih]

/-- Once the repair pass has run, every later WAV decode is preceded by it. -/
theorem repairedBeforeWavDecode_true (tr : List Event) :
    repairedBeforeWavDecode true tr = true := by
  induction tr with
  | nil => rfl
  | cons e rest ih =>
    cases e with
    | Decode t enc => cases t <;> simp [repairedBeforeWavDecode, ih]
    | _ => simp [repairedBeforeWavDecode, ih]

/-! ## The sniffer and the dispatcher: auxiliary facts -/

/-- Content sniffing never answers Auto. -/
theorem GetAudioFormat_ne_Auto (env : Env) (AudioData : Bytes) :
    GetAudioFormat env AudioData ≠ EAudioFormat.Auto := by
  unfold GetAudioFormat
  split
  · simp
  · split
    · simp
    · split
      · simp
      · split <;> simp

/-- Extension lookup never answers Auto. -/
theorem GetAudioFormatByPath_ne_Auto (FilePath : String) :
    GetAudioFormatByPath FilePath ≠ EAudioFormat.Auto := by
  unfold GetAudioFormatByPath
  simp only []
  split
  · simp
  · split
    · simp
    · split
      · simp
      · split <;> simp

/-- The tag that `DecodeAudioData` leaves in the encoded struct. -/
theorem DecodeAudioData_EncodedAudioInfo (env : Env) (enc : FEncodedAudioStruct)
    (dec : FDecodedAudioStruct) :
    (DecodeAudioData env enc dec).EncodedAudioInfo =
      { enc with AudioFormat :=
          if enc.AudioFormat = EAudioFormat.Auto then GetAudioFormat env enc.AudioData
          else enc.AudioFormat } := by
  obtain ⟨data, fmt⟩ := enc
  cases fmt
  case Auto =>
    cases hs : GetAudioFormat env data <;> simp [DecodeAudioData, decodeWith, hs]
  all_goals simp [DecodeAudioData, decodeWith]

/-- The dispatcher emits no result. -/
theorem results_DecodeAudioData (env : Env) (enc : FEncodedAudioStruct)
    (dec : FDecodedAudioStruct) : results (DecodeAudioData env enc dec).calls = [] := by
  obtain ⟨data, fmt⟩ := enc
  cases fmt
  case Auto =>
    cases hs : GetAudioFormat env data <;>
      simp [DecodeAudioData, decodeWith, hs, results]
  all_goals simp [DecodeAudioData, decodeWith, results]

/-- The dispatcher calls the backend of the resolved tag and no other. -/
theorem decodedBy_DecodeAudioData (env : Env) (enc : FEncodedAudioStruct)
    (dec : FDecodedAudioStruct) :
    decodedBy (DecodeAudioData env enc dec).calls =
      (backendOf (DecodeAudioData env enc dec).EncodedAudioInfo.AudioFormat).toList := by
  obtain ⟨data, fmt⟩ := enc
  cases fmt
  case Auto =>
    cases hs : GetAudioFormat env data <;>
      simp [DecodeAudioData, decodeWith, hs, decodedBy, backendOf]
  all_goals simp [DecodeAudioData, decodeWith, decodedBy, backendOf]

/-! ## The import pipeline: auxiliary facts -/

/-- The results that `ImportAudioFromDecodedInfo` emits: one failure when no
sound wave is created; otherwise Success, preceded by InvalidAudioFormat when
the PCM buffer is not filled and the WAV encoder fails. -/
theorem results_ImportAudioFromDecodedInfo (env : Env) (dec : FDecodedAudioStruct) (b : Bool) :
    results (ImportAudioFromDecodedInfo env dec b) =
      match env.CreateImportedSoundWave with
      | none => [ETranscodingStatus.SoundWaveDeclarationError]
      | some _ =>
        if b = false ∧ (env.WAVEncode dec FEncodedAudioStruct.empty
            { Format := EWAVEncodingFormat.FORMAT_PCM, BitsPerSample := 16 }).1 = false then
          [ETranscodingStatus.InvalidAudioFormat, ETranscodingStatus.SuccessfulImport]
        else [ETranscodingStatus.SuccessfulImport] := by
  unfold ImportAudioFromDecodedInfo
  cases hc : env.CreateImportedSoundWave with
  | none => simp [results]
  | some sw =>
    cases b
    · cases he : (env.WAVEncode dec FEncodedAudioStruct.empty
        { Format := EWAVEncodingFormat.FORMAT_PCM, BitsPerSample := 16 }).1 <;>
        simp [results, FillRawWaveBuffer, he]
    · simp [results]

/-- Publishing decodes nothing. -/
theorem decodedBy_ImportAudioFromDecodedInfo (env : Env) (dec : FDecodedAudioStruct)
    (b : Bool) : decodedBy (ImportAudioFromDecodedInfo env dec b) = [] := by
  unfold ImportAudioFromDecodedInfo
  cases hc : env.CreateImportedSoundWave with
  | none => simp [decodedBy]
  | some sw =>
    cases b
    · cases he : (env.WAVEncode dec FEncodedAudioStruct.empty
        { Format := EWAVEncodingFormat.FORMAT_PCM, BitsPerSample := 16 }).1 <;>
        simp [decodedBy, FillRawWaveBuffer, he]
    · simp [decodedBy]

/-- The background task decodes with the backend of its tag. -/
theorem decodedBy_task (env : Env) (data : Bytes) (fmt : EAudioFormat) (b : Bool)
    (hfmt : fmt ≠ EAudioFormat.Auto) :
    decodedBy (ImportAudioFromBuffer.task env data fmt b) = (backendOf fmt).toList := by
  unfold ImportAudioFromBuffer.task
  by_cases hI : fmt = EAudioFormat.Invalid
  · subst hI; simp [decodedBy, backendOf]
  · have hd := decodedBy_DecodeAudioData env { AudioData := data, AudioFormat := fmt }
      FDecodedAudioStruct.empty
    have he := DecodeAudioData_EncodedAudioInfo env { AudioData := data, AudioFormat := fmt }
      FDecodedAudioStruct.empty
    simp only [if_neg hfmt] at he
    rw [he] at hd
    simp only [if_neg hI]
    split <;>
      simp [decodedBy_append, decodedBy, hd, decodedBy_ImportAudioFromDecodedInfo]

/-- The backends with which `ImportAudioFromBuffer` decodes. -/
theorem decodedBy_ImportAudioFromBuffer (env : Env) (data : Bytes) (fmt : EAudioFormat)
    (b : Bool) :
    decodedBy (ImportAudioFromBuffer env data fmt b) =
      if fmt = EAudioFormat.Wav then
        (if (env.CheckAndFixWavDurationErrors data).1 = true then [Transcoder.WAVTranscoder]
          else [])
      else if fmt = EAudioFormat.Auto then (backendOf (GetAudioFormat env data)).toList
      else (backendOf fmt).toList := by
  have hne : GetAudioFormat env data ≠ EAudioFormat.Auto := GetAudioFormat_ne_Auto env data
  unfold ImportAudioFromBuffer
  by_cases hW : fmt = EAudioFormat.Wav
  · subst hW
    cases hr : (env.CheckAndFixWavDurationErrors data).1 <;>
      simp [hr, decodedBy, decodedBy_append, decodedBy_task, backendOf]
  · by_cases hA : fmt = EAudioFormat.Auto
    · subst hA
      simp [decodedBy, decodedBy_append, decodedBy_task, hne]
    · simp [hW, hA, decodedBy_task]

/-- The background task always emits a result. -/
theorem results_task_ne_nil (env : Env) (data : Bytes) (fmt : EAudioFormat) (b : Bool) :
    results (ImportAudioFromBuffer.task env data fmt b) ≠ [] := by
  unfold ImportAudioFromBuffer.task
  by_cases hI : fmt = EAudioFormat.Invalid
  · simp [hI, results]
  · cases hd : (DecodeAudioData env { AudioData := data, AudioFormat := fmt }
        FDecodedAudioStruct.empty).ret
    · simp [hI, hd, results_append, results]
    · simp only [hI, hd, if_false, Bool.not_true, Bool.false_eq_true, results_append,
        results_ImportAudioFromDecodedInfo]
      cases env.CreateImportedSoundWave with
      | none => simp
      | some sw => simp only []; split <;> simp

/-- Apart from the run in which the tag is Wav and the repair pass fails,
every call of `ImportAudioFromBuffer` emits a result. -/
theorem ImportAudioFromBuffer_results_ne_nil (env : Env) (data : Bytes) (fmt : EAudioFormat)
    (b : Bool)
    (h : fmt = EAudioFormat.Wav → (env.CheckAndFixWavDurationErrors data).1 = true) :
    results (ImportAudioFromBuffer env data fmt b) ≠ [] := by
  unfold ImportAudioFromBuffer
  by_cases hW : fmt = EAudioFormat.Wav
  · simp [hW, h hW, results_append, results, results_task_ne_nil]
  · by_cases hA : fmt = EAudioFormat.Auto
    · simp [hA, results_append, results, results_task_ne_nil]
    · simp [hW, hA, results_task_ne_nil]

/-! ## The import pipeline -/

/-- C1: on the code, a run with `bFillPCMBuffer = false` whose WAV encoding
fails emits two results.  For the buffer `riffBytes` declared Wav, in the
environment whose WAV encoder fails, the results are InvalidAudioFormat and
then SuccessfulImport, and after the failure result the run still emits the
progress values 95 and 100 and the Success result. -/
theorem ImportAudioFromBuffer_success_after_failure :
    results (ImportAudioFromBuffer demoEnvEncodeFails riffBytes EAudioFormat.Wav false)
        = [ETranscodingStatus.InvalidAudioFormat, ETranscodingStatus.SuccessfulImport]
      ∧ progressValues
          (afterFailure (ImportAudioFromBuffer demoEnvEncodeFails riffBytes EAudioFormat.Wav false))
        = [95, 100]
      ∧ results
          (afterFailure (ImportAudioFromBuffer demoEnvEncodeFails riffBytes EAudioFormat.Wav false))
        = [ETranscodingStatus.SuccessfulImport] := by
  decide

/-- C2: on the code, `ImportAudioFromBuffer` with tag Wav on a buffer that
the repair pass rejects makes that one call and returns: the run emits no
result at all.  Shown for the buffer `oggBytes` declared Wav. -/
theorem ImportAudioFromBuffer_wav_repair_failure_silent :
    (demoEnv.CheckAndFixWavDurationErrors oggBytes).1 = false
      ∧ ImportAudioFromBuffer demoEnv oggBytes EAudioFormat.Wav true
        = [Event.CheckAndFixWavDurationErrors oggBytes]
      ∧ results (ImportAudioFromBuffer demoEnv oggBytes EAudioFormat.Wav true) = [] := by
  decide

/-- C3, as stated, fails: the file `song.mp3` exists, loads to `oggBytes`,
which sniff as OggVorbis, and `ImportAudioFromFile` with Auto decodes it with
the MP3 backend; the same bytes under the name `song.wav`, with a repair pass
that lets them through, are decoded with the WAV backend. -/
theorem ImportAudioFromFile_auto_ignores_sniffing :
    demoEnv.FileExists "song.mp3" = true
      ∧ LoadAudioFileToArray demoEnv "song.mp3" = LoadOutcome.ReturnsTrue oggBytes
      ∧ GetAudioFormat demoEnv oggBytes = EAudioFormat.OggVorbis
      ∧ (ImportAudioFromFile demoEnv "song.mp3" EAudioFormat.Auto true).map decodedBy
        = some [Transcoder.MP3Transcoder]
      ∧ demoEnvLenient.FileExists "song.wav" = true
      ∧ LoadAudioFileToArray demoEnvLenient "song.wav" = LoadOutcome.ReturnsTrue oggBytes
      ∧ GetAudioFormat demoEnvLenient oggBytes = EAudioFormat.OggVorbis
      ∧ (ImportAudioFromFile demoEnvLenient "song.wav" EAudioFormat.Auto true).map decodedBy
        = some [Transcoder.WAVTranscoder] := by
  decide

/-- C3, amended: for `ImportAudioFromFile` with Auto on an existing, readable
file, the decoder invoked is the one of the format the extension maps to when
the extension is recognised, and the one of the format that sniffing the
loaded bytes returns only when the extension is not recognised (none when
sniffing returns Invalid).  The run in which the extension maps to Wav and the
repair pass fails is left aside. -/
theorem ImportAudioFromFile_auto_decodes_by_extension (env : Env) (FilePath : String)
    (bFillPCMBuffer : Bool) (AudioData : Bytes)
    (hExists : env.FileExists FilePath = true)
    (hLoad : LoadAudioFileToArray env FilePath = LoadOutcome.ReturnsTrue AudioData)
    (hRepair : GetAudioFormatByPath FilePath = EAudioFormat.Wav →
      (env.CheckAndFixWavDurationErrors AudioData).1 = true) :
    (ImportAudioFromFile env FilePath EAudioFormat.Auto bFillPCMBuffer).map decodedBy =
      some (backendOf
        (if GetAudioFormatByPath FilePath = EAudioFormat.Invalid then GetAudioFormat env AudioData
          else GetAudioFormatByPath FilePath)).toList := by
  have hne : GetAudioFormatByPath FilePath ≠ EAudioFormat.Auto :=
    GetAudioFormatByPath_ne_Auto FilePath
  unfold ImportAudioFromFile
  simp only [hExists, hLoad, Bool.not_true, if_true, Option.map_some', decodedBy_append,
    decodedBy_ImportAudioFromBuffer, Bool.false_eq_true, if_false]
  cases hx : GetAudioFormatByPath FilePath
  case Auto => exact absurd hx hne
  case Wav => simp [decodedBy, hRepair hx, backendOf]
  all_goals simp [decodedBy, backendOf]

/-- The amended C3 at the file `song.mp3` of `demoEnv`. -/
theorem ImportAudioFromFile_auto_decodes_by_extension_witness :
    demoEnv.FileExists "song.mp3" = true
      ∧ LoadAudioFileToArray demoEnv "song.mp3" = LoadOutcome.ReturnsTrue oggBytes
      ∧ (GetAudioFormatByPath "song.mp3" = EAudioFormat.Wav →
          (demoEnv.CheckAndFixWavDurationErrors oggBytes).1 = true)
      ∧ (ImportAudioFromFile demoEnv "song.mp3" EAudioFormat.Auto true).map decodedBy =
          some (backendOf
            (if GetAudioFormatByPath "song.mp3" = EAudioFormat.Invalid then
              GetAudioFormat demoEnv oggBytes
            else GetAudioFormatByPath "song.mp3")).toList :=
  ⟨by decide, by decide, by decide,
    ImportAudioFromFile_auto_decodes_by_extension demoEnv "song.mp3" true oggBytes
      (by decide) (by decide) (by decide)⟩

/-! ## The dispatcher and the sniffer -/

/-- C4: on the code, `EncodeAudioData` returns true, not false, when the
target tag is Mp3 or Flac, for every environment, decoded input, payload and
quality; no encoder is called. -/
theorem EncodeAudioData_mp3_flac_returns_true (env : Env) (dec : FDecodedAudioStruct)
    (data : Bytes) (Quality : Nat) :
    (EncodeAudioData env dec { AudioData := data, AudioFormat := EAudioFormat.Mp3 } Quality).ret
        = true
      ∧ (EncodeAudioData env dec { AudioData := data, AudioFormat := EAudioFormat.Flac }
          Quality).ret = true
      ∧ (EncodeAudioData env dec { AudioData := data, AudioFormat := EAudioFormat.Mp3 }
          Quality).calls = []
      ∧ (EncodeAudioData env dec { AudioData := data, AudioFormat := EAudioFormat.Flac }
          Quality).calls = [] := by
  simp [EncodeAudioData]

/-- C5: `DecodeAudioData` sniffs exactly when the input tag is Auto and
stores the sniffed tag; a resolved tag that belongs to a backend leads to one
call of that backend's `Decode`, on the struct with the resolved tag, and to
no other backend call, and the return value and the decoded struct are those
of that call; a resolved tag Invalid makes no backend call, returns false and
leaves the decoded struct as it was.  The resolved tag is never Auto. -/
theorem DecodeAudioData_dispatch (env : Env) (enc : FEncodedAudioStruct)
    (dec : FDecodedAudioStruct) :
    (∀ d : Bytes, Event.GetAudioFormat d ∈ (DecodeAudioData env enc dec).calls ↔
        (enc.AudioFormat = EAudioFormat.Auto ∧ d = enc.AudioData))
      ∧ (DecodeAudioData env enc dec).EncodedAudioInfo =
          { enc with AudioFormat :=
              if enc.AudioFormat = EAudioFormat.Auto then GetAudioFormat env enc.AudioData
              else enc.AudioFormat }
      ∧ (DecodeAudioData env enc dec).EncodedAudioInfo.AudioFormat ≠ EAudioFormat.Auto
      ∧ (∀ t : Transcoder, (DecodeAudioData env enc dec).EncodedAudioInfo.AudioFormat = t.format →
          ((DecodeAudioData env enc dec).calls =
              (if enc.AudioFormat = EAudioFormat.Auto then [Event.GetAudioFormat enc.AudioData]
                else []) ++ [Event.Decode t (DecodeAudioData env enc dec).EncodedAudioInfo]
            ∧ decodedBy (DecodeAudioData env enc dec).calls = [t]
            ∧ (DecodeAudioData env enc dec).ret =
                (env.Decode t (DecodeAudioData env enc dec).EncodedAudioInfo dec).1
            ∧ (DecodeAudioData env enc dec).DecodedAudioInfo =
                (env.Decode t (DecodeAudioData env enc dec).EncodedAudioInfo dec).2))
      ∧ ((DecodeAudioData env enc dec).EncodedAudioInfo.AudioFormat = EAudioFormat.Invalid →
          ((DecodeAudioData env enc dec).ret = false
            ∧ decodedBy (DecodeAudioData env enc dec).calls = []
            ∧ (DecodeAudioData env enc dec).DecodedAudioInfo = dec)) := by
  have hne : GetAudioFormat env enc.AudioData ≠ EAudioFormat.Auto :=
    GetAudioFormat_ne_Auto env enc.AudioData
  obtain ⟨data, fmt⟩ := enc
  cases fmt
  case Auto =>
    simp only [ne_eq] at hne
    cases hs : GetAudioFormat env data
    · exact absurd hs hne
    all_goals
      simp only [DecodeAudioData, decodeWith, hs, if_true]
      refine ⟨?_, ?_, ?_, ?_, ?_⟩
      · intro d; simp [eq_comm]
      · trivial
      · simp
      · intro t ht; cases t <;> simp [Transcoder.format] at ht <;> simp [decodedBy]
      · simp [decodedBy]
  all_goals
    simp only [DecodeAudioData, decodeWith]
    refine ⟨?_, ?_, ?_, ?_, ?_⟩
    · intro d; simp
    · rfl
    · simp
    · intro t ht; cases t <;> simp [Transcoder.format] at ht <;> simp [decodedBy]
    · simp [decodedBy]

/-- C6: `GetAudioFormat` on a byte buffer is the first match in the order
Mp3, Wav, Flac, OggVorbis: it agrees with `sniffFirstMatch`; it returns the
format of backend `t` exactly when `t` accepts the buffer and every backend
that comes earlier in the order rejects it; and it returns Invalid exactly
when none of the four accepts the buffer. -/
theorem GetAudioFormat_first_match (env : Env) (AudioData : Bytes) :
    GetAudioFormat env AudioData = sniffFirstMatch env AudioData
      ∧ (∀ t : Transcoder, GetAudioFormat env AudioData = t.format ↔
          (env.CheckAudioFormat t AudioData = true
            ∧ ∀ u : Transcoder, u.rank < t.rank → env.CheckAudioFormat u AudioData = false))
      ∧ (GetAudioFormat env AudioData = EAudioFormat.Invalid ↔
          ∀ t : Transcoder, env.CheckAudioFormat t AudioData = false) := by
  have hall : ∀ P : Transcoder → Prop,
      (∀ t, P t) ↔ (P Transcoder.MP3Transcoder ∧ P Transcoder.WAVTranscoder
        ∧ P Transcoder.FlacTranscoder ∧ P Transcoder.VorbisTranscoder) := by
    intro P
    constructor
    · intro h
      exact ⟨h _, h _, h _, h _⟩
    · rintro ⟨h1, h2, h3, h4⟩ t
      cases t <;> assumption
  cases h1 : env.CheckAudioFormat Transcoder.MP3Transcoder AudioData <;>
  cases h2 : env.CheckAudioFormat Transcoder.WAVTranscoder AudioData <;>
  cases h3 : env.CheckAudioFormat Transcoder.FlacTranscoder AudioData <;>
  cases h4 : env.CheckAudioFormat Transcoder.VorbisTranscoder AudioData <;>
  simp [GetAudioFormat, sniffFirstMatch, List.find?, hall, Transcoder.format, Transcoder.rank,
    h1, h2, h3, h4]

/-- C7: `GetAudioFormat` on a file path is a function of the lower-cased
extension: Mp3 exactly for `mp3`, Wav exactly for `wav` and `wave`, Flac
exactly for `flac`, OggVorbis exactly for `ogg`, `oga` and `sb0`, Invalid
exactly for everything else, the empty extension included; two paths with the
same lower-cased extension get the same format, so `song.MP3` and `song.mp3`
agree. -/
theorem GetAudioFormatByPath_extension_table (FilePath : String) :
    (GetAudioFormatByPath FilePath = EAudioFormat.Mp3 ↔
        FString.ToLower (FPaths.GetExtension FilePath) = "mp3")
      ∧ (GetAudioFormatByPath FilePath = EAudioFormat.Wav ↔
          (FString.ToLower (FPaths.GetExtension FilePath) = "wav"
            ∨ FString.ToLower (FPaths.GetExtension FilePath) = "wave"))
      ∧ (GetAudioFormatByPath FilePath = EAudioFormat.Flac ↔
          FString.ToLower (FPaths.GetExtension FilePath) = "flac")
      ∧ (GetAudioFormatByPath FilePath = EAudioFormat.OggVorbis ↔
          (FString.ToLower (FPaths.GetExtension FilePath) = "ogg"
            ∨ FString.ToLower (FPaths.GetExtension FilePath) = "oga"
            ∨ FString.ToLower (FPaths.GetExtension FilePath) = "sb0"))
      ∧ (GetAudioFormatByPath FilePath = EAudioFormat.Invalid ↔
          FString.ToLower (FPaths.GetExtension FilePath) ∉
            ["mp3", "wav", "wave", "flac", "ogg", "oga", "sb0"])
      ∧ (∀ Other : String,
          FString.ToLower (FPaths.GetExtension Other)
              = FString.ToLower (FPaths.GetExtension FilePath) →
            GetAudioFormatByPath Other = GetAudioFormatByPath FilePath)
      ∧ GetAudioFormatByPath "song.MP3" = GetAudioFormatByPath "song.mp3"
      ∧ GetAudioFormatByPath "song.mp3" = EAudioFormat.Mp3
      ∧ GetAudioFormatByPath "Music/Track.Wave" = EAudioFormat.Wav
      ∧ GetAudioFormatByPath "song" = EAudioFormat.Invalid := by
  refine ⟨?_, ?_, ?_, ?_, ?_, ?_, ?_, ?_, ?_, ?_⟩
  case refine_6 =>
    intro Other h
    simp only [GetAudioFormatByPath, h]
  case refine_7 => decide
  case refine_8 => decide
  case refine_9 => decide
  case refine_10 => decide
  all_goals
    simp only [GetAudioFormatByPath]
    generalize FString.ToLower (FPaths.GetExtension FilePath) = e
    by_cases h1 : e = "mp3"
    · subst h1; simp; try decide
    by_cases h2 : e = "wav"
    · subst h2; simp; try decide
    by_cases h3 : e = "wave"
    · subst h3; simp; try decide
    by_cases h4 : e = "flac"
    · subst h4; simp; try decide
    by_cases h5 : e = "ogg"
    · subst h5; simp; try decide
    by_cases h6 : e = "oga"
    · subst h6; simp; try decide
    by_cases h7 : e = "sb0"
    · subst h7; simp; try decide
    simp [h1, h2, h3, h4, h5, h6, h7]

/-! ## The RAW sample converter -/

/-- Different stored samples have different bytes. -/
theorem twoBytes_injective (i j : Nat) (h : twoBytes i = twoBytes j) : i = j := by
  simp [twoBytes] at h
  omega

/-- Whatever the converters compute, as long as the Int16 to UInt8 converter
turns a buffer of one 16-bit sample into one byte, some buffer of one 16-bit
sample is not recovered by transcoding it from Int16 to Int16: among 257
samples two share their intermediate byte. -/
theorem TranscodeRAWDataFromBuffer_int16_round_trip_loses (env : Env)
    (hlen : ∀ x : Bytes, x.length = 2 →
      ∃ b, b < 256 ∧ env.TranscodeRAWData SampleType.int16 SampleType.uint8 x = [b]) :
    ∃ x : Bytes, x.length = 2 ∧ (∀ b ∈ x, b < 256)
      ∧ TranscodeRAWDataFromBuffer env x ERAWAudioFormat.Int16 ERAWAudioFormat.Int16 ≠ x := by
  classical
  let g : Nat → Nat := fun i =>
    (env.TranscodeRAWData SampleType.int16 SampleType.uint8 (twoBytes i)).headD 0
  have hg : ∀ i, env.TranscodeRAWData SampleType.int16 SampleType.uint8 (twoBytes i) = [g i]
      ∧ g i < 256 := by
    intro i
    obtain ⟨b, hb, hx⟩ := hlen (twoBytes i) (by simp [twoBytes])
    simp [g, hx, hb]
  have hmaps : ∀ i ∈ Finset.range 257, g i ∈ Finset.range 256 := by
    intro i _
    exact Finset.mem_range.mpr (hg i).2
  obtain ⟨i, hi, j, hj, hij, hgij⟩ :=
    Finset.exists_ne_map_eq_of_card_lt_of_maps_to (by simp) hmaps
  have hbytes : ∀ k ∈ Finset.range 257, ∀ b ∈ twoBytes k, b < 256 := by
    intro k hk b hb
    have := Finset.mem_range.mp hk
    simp [twoBytes] at hb
    omega
  have hout : TranscodeRAWDataFromBuffer env (twoBytes i) ERAWAudioFormat.Int16
      ERAWAudioFormat.Int16
      = TranscodeRAWDataFromBuffer env (twoBytes j) ERAWAudioFormat.Int16
        ERAWAudioFormat.Int16 := by
    simp [TranscodeRAWDataFromBuffer, (hg i).1, (hg j).1, hgij]
  by_cases h : TranscodeRAWDataFromBuffer env (twoBytes i) ERAWAudioFormat.Int16
      ERAWAudioFormat.Int16 = twoBytes i
  · refine ⟨twoBytes j, by simp [twoBytes], hbytes j hj, ?_⟩
    intro hj2
    exact hij (twoBytes_injective i j (by rw [← h, hout, hj2]))
  · exact ⟨twoBytes i, by simp [twoBytes], hbytes i hi, h⟩

/-- The converters of section 4.1 turn one 16-bit sample into one byte, so
the loss above applies to them. -/
theorem specTranscodeRAWData_int16_uint8_one_byte (x : Bytes) (hx : x.length = 2) :
    ∃ b, b < 256 ∧ demoEnv.TranscodeRAWData SampleType.int16 SampleType.uint8 x = [b] := by
  match x, hx with
  | [a, c], _ =>
    refine ⟨_, ?_, rfl⟩
    simp [SampleType.store, SampleType.width]
    omega

/-- The unsigned 8-bit scenario of the specification: the bytes 0, 128, 255,
64 become the 16-bit samples -32768, 0, 32512, -16384. -/
theorem specTranscodeRAWData_uint8_int16_scenario :
    specTranscodeRAWData SampleType.uint8 SampleType.int16 [0, 128, 255, 64]
        = [0, 128, 0, 0, 0, 127, 0, 192]
      ∧ (readSamples 2 [0, 128, 0, 0, 0, 127, 0, 192]).map SampleType.int16.value
        = [-32768, 0, 32512, -16384] := by
  decide

/-- C8, as stated, fails: with the converters of section 4.1, the two-byte
Int16 buffer holding the sample 1 is transcoded from Int16 to Int16 into the
sample 0, and the four-byte Int32 buffer holding the sample 1 is transcoded
from Int32 to Int32 into the sample 0. -/
theorem TranscodeRAWDataFromBuffer_same_format_not_identity :
    [1, 0].length % ERAWAudioFormat.Int16.sampleWidth = 0
      ∧ TranscodeRAWDataFromBuffer demoEnv [1, 0] ERAWAudioFormat.Int16 ERAWAudioFormat.Int16
        = [0, 0]
      ∧ TranscodeRAWDataFromBuffer demoEnv [1, 0] ERAWAudioFormat.Int16 ERAWAudioFormat.Int16
        ≠ [1, 0]
      ∧ [1, 0, 0, 0].length % ERAWAudioFormat.Int32.sampleWidth = 0
      ∧ TranscodeRAWDataFromBuffer demoEnv [1, 0, 0, 0] ERAWAudioFormat.Int32
          ERAWAudioFormat.Int32 ≠ [1, 0, 0, 0] := by
  decide

/-- C8, amended: transcoding from UInt8 to UInt8 is an identity copy of every
buffer, whatever the converters are; from Int16 to Int16, Int32 to Int32 and
Float32 to Float32 the output is the input converted to unsigned 8-bit and
back. -/
theorem TranscodeRAWDataFromBuffer_same_format (env : Env) (x : Bytes) :
    TranscodeRAWDataFromBuffer env x ERAWAudioFormat.UInt8 ERAWAudioFormat.UInt8 = x
      ∧ TranscodeRAWDataFromBuffer env x ERAWAudioFormat.Int16 ERAWAudioFormat.Int16
        = env.TranscodeRAWData SampleType.uint8 SampleType.int16
            (env.TranscodeRAWData SampleType.int16 SampleType.uint8 x)
      ∧ TranscodeRAWDataFromBuffer env x ERAWAudioFormat.Int32 ERAWAudioFormat.Int32
        = env.TranscodeRAWData SampleType.uint8 SampleType.int32
            (env.TranscodeRAWData SampleType.int32 SampleType.uint8 x)
      ∧ TranscodeRAWDataFromBuffer env x ERAWAudioFormat.Float32 ERAWAudioFormat.Float32
        = env.TranscodeRAWData SampleType.uint8 SampleType.float
            (env.TranscodeRAWData SampleType.float SampleType.uint8 x) := by
  simp [TranscodeRAWDataFromBuffer]

/-- C9, as stated, fails: with the converters of section 4.1, the Int32
buffer holding the sample 65536 is transcoded to Int16 as the sample 0, while
the conversion through a signed 16-bit intermediate gives the sample 1. -/
theorem TranscodeRAWDataFromBuffer_not_via_int16 :
    TranscodeRAWDataFromBuffer demoEnv [0, 0, 1, 0] ERAWAudioFormat.Int32 ERAWAudioFormat.Int16
        = [0, 0]
      ∧ transcodeViaInt16 demoEnv [0, 0, 1, 0] ERAWAudioFormat.Int32 ERAWAudioFormat.Int16
        = [1, 0]
      ∧ TranscodeRAWDataFromBuffer demoEnv [0, 0, 1, 0] ERAWAudioFormat.Int32
          ERAWAudioFormat.Int16
        ≠ transcodeViaInt16 demoEnv [0, 0, 1, 0] ERAWAudioFormat.Int32 ERAWAudioFormat.Int16 := by
  decide

/-- C9, amended: for every pair of RAW formats and every buffer,
`TranscodeRAWDataFromBuffer` converts the input to an unsigned 8-bit
intermediate (a plain copy when the input is UInt8) and converts that
intermediate to the output format (a plain copy when the output is UInt8),
whatever the converters are. -/
theorem TranscodeRAWDataFromBuffer_via_uint8 (env : Env) (x : Bytes)
    (RAWFrom RAWTo : ERAWAudioFormat) :
    TranscodeRAWDataFromBuffer env x RAWFrom RAWTo = transcodeViaUInt8 env x RAWFrom RAWTo := by
  cases RAWFrom <;> cases RAWTo <;>
    simp [TranscodeRAWDataFromBuffer, transcodeViaUInt8, convertOrCopy,
      ERAWAudioFormat.sampleType]

/-! ## The WAV repair pass -/

/-- C10: on the code, a caller-declared Wav buffer is always repaired before
the WAV backend decodes it, but a buffer passed as Auto that sniffs as Wav is
not: for `riffBytes` passed as Auto the WAV backend's `Decode` is invoked and
`CheckAndFixWavDurationErrors` is never called. -/
theorem ImportAudioFromBuffer_auto_wav_not_repaired :
    (∀ (env : Env) (data : Bytes) (b : Bool),
        repairedBeforeWavDecode false (ImportAudioFromBuffer env data EAudioFormat.Wav b) = true)
      ∧ GetAudioFormat demoEnv riffBytes = EAudioFormat.Wav
      ∧ decodedBy (ImportAudioFromBuffer demoEnv riffBytes EAudioFormat.Auto true)
        = [Transcoder.WAVTranscoder]
      ∧ repairedBuffers (ImportAudioFromBuffer demoEnv riffBytes EAudioFormat.Auto true) = []
      ∧ repairedBeforeWavDecode false
          (ImportAudioFromBuffer demoEnv riffBytes EAudioFormat.Auto true) = false := by
  refine ⟨?_, by decide, by decide, by decide, by decide⟩
  intro env data b
  unfold ImportAudioFromBuffer
  cases hr : (env.CheckAndFixWavDurationErrors data).1 <;>
    simp [hr, repairedBeforeWavDecode, repairedBeforeWavDecode_true]

/-! ## Progress values: auxiliary facts -/

/-- The progress values of a run in two parts are those of the parts, in order. -/
theorem progressValues_append (a b : List Event) :
    progressValues (a ++ b) = progressValues a ++ progressValues b := by
  induction a with
  | nil => rfl
  | cons e rest ih => cases e <;> simp [progressValues, ih]

/-- The last progress value of a run in two parts. -/
theorem lastProgress_append (l : Int) (a b : List Event) :
    lastProgress l (a ++ b) = lastProgress (lastProgress l a) b := by
  induction a generalizing l with
  | nil => rfl
  | cons e rest ih => cases e <;> simp [lastProgress, ih]

/-- A run in two parts is in order when the first part is and the second part
is, starting from the last progress value of the first. -/
theorem progressInOrder_append (l : Int) (a b : List Event) :
    progressInOrder l (a ++ b)
      = (progressInOrder l a && progressInOrder (lastProgress l a) b) := by
  induction a generalizing l with
  | nil => simp [progressInOrder, lastProgress]
  | cons e rest ih => cases e <;> simp [progressInOrder, lastProgress, ih, Bool.and_assoc]

/-- The last progress value, read off the list of progress values. -/
theorem lastProgress_eq (l : Int) (tr : List Event) :
    lastProgress l tr = ((progressValues tr).getLast?).getD l := by
  induction tr generalizing l with
  | nil => rfl
  | cons e rest ih =>
    cases e with
    | OnProgress_Internal p =>
      simp only [lastProgress, progressValues, ih]
      cases h : progressValues rest with
      | nil => simp
      | cons q qs => simp [List.getLast?_eq_getLast _ (List.cons_ne_nil _ _)]
    | _ => simp [lastProgress, progressValues, ih]

/-- In a run that is in order the progress values never decrease and stay
between the starting value and 100. -/
theorem progressInOrder_bounds (l : Int) (tr : List Event)
    (h : progressInOrder l tr = true) :
    List.Pairwise (fun p q => p ≤ q) (progressValues tr)
      ∧ (∀ p ∈ progressValues tr, l ≤ p ∧ p ≤ 100) := by
  induction tr generalizing l with
  | nil => simp [progressValues]
  | cons e rest ih =>
    cases e with
    | OnProgress_Internal p =>
      simp only [progressInOrder, Bool.and_eq_true, decide_eq_true_eq] at h
      obtain ⟨⟨h1, h2⟩, h3⟩ := h
      obtain ⟨ih1, ih2⟩ := ih p h3
      simp only [progressValues, List.pairwise_cons, List.mem_cons, forall_eq_or_imp]
      refine ⟨⟨fun q hq => (ih2 q hq).1, ih1⟩, ⟨h1, h2⟩, fun q hq => ?_⟩
      exact ⟨le_trans h1 (ih2 q hq).1, (ih2 q hq).2⟩
    | OnResult_Internal w s =>
      simp only [progressInOrder, Bool.and_eq_true] at h
      simpa [progressValues] using ih l h.2
    | _ => simpa [progressValues, progressInOrder] using ih l (by simpa [progressInOrder] using h)

/-- In a run that is in order, the last progress value before a Success result is 100. -/
theorem progressInOrder_success (l : Int) (tr pre post : List Event)
    (w : Option URuntimeSoundWave) (h : progressInOrder l tr = true)
    (hsplit : tr = pre ++ Event.OnResult_Internal w ETranscodingStatus.SuccessfulImport :: post) :
    lastProgress l pre = 100 := by
  subst hsplit
  rw [progressInOrder_append] at h
  simp only [progressInOrder, Bool.and_eq_true, Bool.or_eq_true, decide_eq_true_eq] at h
  rcases h.2.1 with h1 | h1
  · exact absurd rfl h1
  · exact h1

/-- The check `progressInOrder`, started at 0, gives `progressWellOrdered`. -/
theorem progressWellOrdered_of_progressInOrder (tr : List Event)
    (h : progressInOrder 0 tr = true) : progressWellOrdered tr := by
  obtain ⟨h1, h2⟩ := progressInOrder_bounds 0 tr h
  refine ⟨h1, h2, ?_⟩
  intro pre post w hsplit
  have hl := progressInOrder_success 0 tr pre post w h hsplit
  rw [lastProgress_eq] at hl
  cases hg : (progressValues pre).getLast? with
  | none => simp [hg] at hl
  | some q => simp [hg] at hl; simp [hl]

/-- The dispatcher emits no progress value and no result. -/
theorem quiet_DecodeAudioData (env : Env) (enc : FEncodedAudioStruct)
    (dec : FDecodedAudioStruct) (l : Int) :
    progressInOrder l (DecodeAudioData env enc dec).calls = true
      ∧ lastProgress l (DecodeAudioData env enc dec).calls = l := by
  obtain ⟨data, fmt⟩ := enc
  cases fmt
  case Auto =>
    cases hs : GetAudioFormat env data <;>
      simp [DecodeAudioData, decodeWith, hs, progressInOrder, lastProgress]
  all_goals simp [DecodeAudioData, decodeWith, progressInOrder, lastProgress]

/-- Publishing is in order after any progress value up to 70. -/
theorem progressInOrder_ImportAudioFromDecodedInfo (env : Env) (dec : FDecodedAudioStruct)
    (b : Bool) (l : Int) (hl : l ≤ 70) :
    progressInOrder l (ImportAudioFromDecodedInfo env dec b) = true := by
  unfold ImportAudioFromDecodedInfo
  cases hc : env.CreateImportedSoundWave with
  | none => simp [progressInOrder]
  | some sw =>
    cases b
    · cases he : (env.WAVEncode dec FEncodedAudioStruct.empty
        { Format := EWAVEncodingFormat.FORMAT_PCM, BitsPerSample := 16 }).1 <;>
        simp [progressInOrder, FillRawWaveBuffer, he, hl]
    · simp [progressInOrder, hl]

/-- The background task is in order after any progress value up to 5. -/
theorem progressInOrder_task (env : Env) (data : Bytes) (fmt : EAudioFormat) (b : Bool)
    (l : Int) (hl : l ≤ 5) :
    progressInOrder l (ImportAudioFromBuffer.task env data fmt b) = true := by
  unfold ImportAudioFromBuffer.task
  by_cases hI : fmt = EAudioFormat.Invalid
  · simp [hI, progressInOrder, hl]
  · have hq := quiet_DecodeAudioData env { AudioData := data, AudioFormat := fmt }
      FDecodedAudioStruct.empty 10
    cases hd : (DecodeAudioData env { AudioData := data, AudioFormat := fmt }
        FDecodedAudioStruct.empty).ret
    · simp [hI, hd, progressInOrder_append, lastProgress_append, progressInOrder, lastProgress,
        hl, hq.1, hq.2]
    · simp [hI, hd, progressInOrder_append, lastProgress_append, progressInOrder, lastProgress,
        hl, hq.1, hq.2, progressInOrder_ImportAudioFromDecodedInfo]

/-- A run of `ImportAudioFromBuffer` is in order after any progress value up to 5. -/
theorem progressInOrder_ImportAudioFromBuffer (env : Env) (data : Bytes) (fmt : EAudioFormat)
    (b : Bool) (l : Int) (hl : l ≤ 5) :
    progressInOrder l (ImportAudioFromBuffer env data fmt b) = true := by
  unfold ImportAudioFromBuffer
  by_cases hW : fmt = EAudioFormat.Wav
  · cases hr : (env.CheckAndFixWavDurationErrors data).1 <;>
      simp [hW, hr, progressInOrder, progressInOrder_task, hl]
  · by_cases hA : fmt = EAudioFormat.Auto
    · simp [hA, progressInOrder, progressInOrder_task, hl]
    · simp [hW, hA, progressInOrder_task, hl]

/-- A run of `ImportAudioFromFile` is in order. -/
theorem progressInOrder_ImportAudioFromFile (env : Env) (FilePath : String)
    (Format : EAudioFormat) (b : Bool) (tr : List Event)
    (h : ImportAudioFromFile env FilePath Format b = some tr) :
    progressInOrder 0 tr = true := by
  unfold ImportAudioFromFile at h
  cases hE : env.FileExists FilePath
  · simp [hE] at h
    subst h
    simp [progressInOrder]
  · cases hL : LoadAudioFileToArray env FilePath with
    | RemoveAtOutOfRange i => simp [hE, hL] at h
    | ReturnsFalse =>
      simp [hE, hL] at h
      subst h
      simp [progressInOrder]
    | ReturnsTrue buf =>
      simp [hE, hL] at h
      subst h
      simp [progressInOrder, progressInOrder_ImportAudioFromBuffer]

/-- A run of `ImportAudioFromInt16Buffer` is in order after any progress value up to 50. -/
theorem progressInOrder_ImportAudioFromInt16Buffer (env : Env) (PCMData : Bytes)
    (PCMDataSize : Int) (b : Bool) (SampleRate NumOfChannels : Int) (l : Int) (hl : l ≤ 50)
    (tr : List Event)
    (h : ImportAudioFromInt16Buffer env PCMData PCMDataSize b SampleRate NumOfChannels = some tr) :
    progressInOrder l tr = true := by
  unfold ImportAudioFromInt16Buffer at h
  by_cases hz : toSizeT NumOfChannels = 0
  · simp [hz] at h
  · simp [hz] at h
    subst h
    simp [progressInOrder, hl, progressInOrder_ImportAudioFromDecodedInfo]

/-- A run of `ImportAudioFromRAWBuffer` is in order after any progress value up to 50. -/
theorem progressInOrder_ImportAudioFromRAWBuffer (env : Env) (RAWBuffer : Bytes)
    (Format : ERAWAudioFormat) (b : Bool) (SampleRate NumOfChannels : Int) (l : Int)
    (hl : l ≤ 50) (tr : List Event)
    (h : ImportAudioFromRAWBuffer env RAWBuffer Format b SampleRate NumOfChannels = some tr) :
    progressInOrder l tr = true := by
  have hq : progressInOrder l (ImportAudioFromRAWBuffer.transcode env RAWBuffer Format).calls
        = true
      ∧ lastProgress l (ImportAudioFromRAWBuffer.transcode env RAWBuffer Format).calls = l := by
    cases Format <;> simp [ImportAudioFromRAWBuffer.transcode, progressInOrder, lastProgress]
  unfold ImportAudioFromRAWBuffer at h
  cases hp : (ImportAudioFromRAWBuffer.transcode env RAWBuffer Format).PCMData with
  | none =>
    simp [hp] at h
    subst h
    simp [progressInOrder_append, hq.1, hq.2, progressInOrder]
  | some PCMData =>
    by_cases hs : (ImportAudioFromRAWBuffer.transcode env RAWBuffer Format).PCMDataSize < 0
    · simp [hp, hs] at h
      subst h
      simp [progressInOrder_append, hq.1, hq.2, progressInOrder]
    · simp only [hp, hs, if_false, Option.map_eq_some'] at h
      obtain ⟨rest, hrest, rfl⟩ := h
      rw [progressInOrder_append, hq.1, hq.2]
      simpa using progressInOrder_ImportAudioFromInt16Buffer env PCMData _ b SampleRate
        NumOfChannels l hl rest hrest

/-- A run of `ImportAudioFromRAWFile` is in order. -/
theorem progressInOrder_ImportAudioFromRAWFile (env : Env) (FilePath : String)
    (Format : ERAWAudioFormat) (b : Bool) (SampleRate NumOfChannels : Int) (tr : List Event)
    (h : ImportAudioFromRAWFile env FilePath Format b SampleRate NumOfChannels = some tr) :
    progressInOrder 0 tr = true := by
  unfold ImportAudioFromRAWFile at h
  cases hE : env.FileExists FilePath
  · simp [hE] at h
    subst h
    simp [progressInOrder]
  · cases hL : LoadAudioFileToArray env FilePath with
    | RemoveAtOutOfRange i => simp [hE, hL] at h
    | ReturnsFalse =>
      simp [hE, hL] at h
      subst h
      simp [progressInOrder]
    | ReturnsTrue buf =>
      simp only [hE, hL, Bool.not_true, Bool.false_eq_true, if_false, Option.map_eq_some'] at h
      obtain ⟨rest, hrest, rfl⟩ := h
      have := progressInOrder_ImportAudioFromRAWBuffer env buf Format b SampleRate
        NumOfChannels 35 (by decide) rest hrest
      simp [progressInOrder, this]

/-! ## Failure paths and progress of the import entry points -/

/-- C12: when the file does not exist, `ImportAudioFromFile` and
`ImportAudioFromRAWFile` check for it and emit the single result
AudioDoesNotExist with a null sound wave, and nothing else: no progress, no
read, no backend call.  When the file exists and `LoadAudioFileToArray`
returns false, both emit the single result LoadFileToArrayError with a null
sound wave and call no backend; the RAW variant has emitted progress 5 before
the read. -/
theorem ImportAudioFromFile_missing_or_unreadable (env : Env) (FilePath : String)
    (Format : EAudioFormat) (RAWFormat : ERAWAudioFormat)
    (b : Bool) (SampleRate NumOfChannels : Int) :
    (env.FileExists FilePath = false →
        ImportAudioFromFile env FilePath Format b
            = some [Event.FileExists FilePath,
                Event.OnResult_Internal none ETranscodingStatus.AudioDoesNotExist]
          ∧ ImportAudioFromRAWFile env FilePath RAWFormat b SampleRate NumOfChannels
            = some [Event.FileExists FilePath,
                Event.OnResult_Internal none ETranscodingStatus.AudioDoesNotExist])
      ∧ (env.FileExists FilePath = true →
          LoadAudioFileToArray env FilePath = LoadOutcome.ReturnsFalse →
        ImportAudioFromFile env FilePath Format b
            = some [Event.FileExists FilePath, Event.LoadFileToArray FilePath,
                Event.OnResult_Internal none ETranscodingStatus.LoadFileToArrayError]
          ∧ ImportAudioFromRAWFile env FilePath RAWFormat b SampleRate NumOfChannels
            = some [Event.FileExists FilePath, Event.OnProgress_Internal 5,
                Event.LoadFileToArray FilePath,
                Event.OnResult_Internal none ETranscodingStatus.LoadFileToArrayError]) := by
  constructor
  · intro h
    simp [ImportAudioFromFile, ImportAudioFromRAWFile, h]
  · intro h hl
    simp [ImportAudioFromFile, ImportAudioFromRAWFile, h, hl]

/-- The statement C12 at the absent file `nothing.wav` of `demoEnv` and at the
file `song.wav` of `demoEnvUnreadable`, which exists and cannot be read. -/
theorem ImportAudioFromFile_missing_or_unreadable_witness :
    (demoEnv.FileExists "nothing.wav" = false →
        ImportAudioFromFile demoEnv "nothing.wav" EAudioFormat.Auto true
            = some [Event.FileExists "nothing.wav",
                Event.OnResult_Internal none ETranscodingStatus.AudioDoesNotExist]
          ∧ ImportAudioFromRAWFile demoEnv "nothing.wav" ERAWAudioFormat.Int16 true 44100 1
            = some [Event.FileExists "nothing.wav",
                Event.OnResult_Internal none ETranscodingStatus.AudioDoesNotExist])
      ∧ demoEnv.FileExists "nothing.wav" = false
      ∧ demoEnvUnreadable.FileExists "song.wav" = true
      ∧ LoadAudioFileToArray demoEnvUnreadable "song.wav" = LoadOutcome.ReturnsFalse
      ∧ (demoEnvUnreadable.FileExists "song.wav" = true →
          LoadAudioFileToArray demoEnvUnreadable "song.wav" = LoadOutcome.ReturnsFalse →
        ImportAudioFromFile demoEnvUnreadable "song.wav" EAudioFormat.Auto true
            = some [Event.FileExists "song.wav", Event.LoadFileToArray "song.wav",
                Event.OnResult_Internal none ETranscodingStatus.LoadFileToArrayError]
          ∧ ImportAudioFromRAWFile demoEnvUnreadable "song.wav" ERAWAudioFormat.Int16 true 44100 1
            = some [Event.FileExists "song.wav", Event.OnProgress_Internal 5,
                Event.LoadFileToArray "song.wav",
                Event.OnResult_Internal none ETranscodingStatus.LoadFileToArrayError]) :=
  ⟨(ImportAudioFromFile_missing_or_unreadable demoEnv "nothing.wav" EAudioFormat.Auto
      ERAWAudioFormat.Int16 true 44100 1).1,
    by decide, by decide, by decide,
    (ImportAudioFromFile_missing_or_unreadable demoEnvUnreadable "song.wav" EAudioFormat.Auto
      ERAWAudioFormat.Int16 true 44100 1).2⟩

/-- C13: in every run of `ImportAudioFromBuffer`, `ImportAudioFromFile`,
`ImportAudioFromRAWFile` and `ImportAudioFromRAWBuffer`, whatever the backends
answer, the values passed to `OnProgress_Internal` never decrease and lie
between 0 and 100, and every Success result comes right after the progress
value 100.  Three runs on `demoEnv` show the sequences. -/
theorem import_progress_well_ordered :
    (∀ (env : Env) (AudioData : Bytes) (AudioFormat : EAudioFormat) (b : Bool),
        progressWellOrdered (ImportAudioFromBuffer env AudioData AudioFormat b))
      ∧ (∀ (env : Env) (FilePath : String) (Format : EAudioFormat) (b : Bool) (tr : List Event),
          ImportAudioFromFile env FilePath Format b = some tr → progressWellOrdered tr)
      ∧ (∀ (env : Env) (FilePath : String) (Format : ERAWAudioFormat) (b : Bool)
          (SampleRate NumOfChannels : Int) (tr : List Event),
          ImportAudioFromRAWFile env FilePath Format b SampleRate NumOfChannels = some tr →
            progressWellOrdered tr)
      ∧ (∀ (env : Env) (RAWBuffer : Bytes) (Format : ERAWAudioFormat) (b : Bool)
          (SampleRate NumOfChannels : Int) (tr : List Event),
          ImportAudioFromRAWBuffer env RAWBuffer Format b SampleRate NumOfChannels = some tr →
            progressWellOrdered tr)
      ∧ (ImportAudioFromFile demoEnv "clip.dat" EAudioFormat.Auto true).map progressValues
        = some [5, 10, 65, 70, 75, 95, 100]
      ∧ (ImportAudioFromRAWFile demoEnv "clip.dat" ERAWAudioFormat.Int16 true 44100 1).map
          progressValues = some [5, 35, 50, 70, 75, 95, 100]
      ∧ (ImportAudioFromRAWBuffer demoEnv [0, 128] ERAWAudioFormat.UInt8 false 44100 1).map
          progressValues = some [50, 70, 75, 95, 100] := by
  refine ⟨?_, ?_, ?_, ?_, by decide, by decide, by decide⟩
  · intro env data fmt b
    exact progressWellOrdered_of_progressInOrder _
      (progressInOrder_ImportAudioFromBuffer env data fmt b 0 (by decide))
  · intro env path fmt b tr h
    exact progressWellOrdered_of_progressInOrder _
      (progressInOrder_ImportAudioFromFile env path fmt b tr h)
  · intro env path fmt b sr nc tr h
    exact progressWellOrdered_of_progressInOrder _
      (progressInOrder_ImportAudioFromRAWFile env path fmt b sr nc tr h)
  · intro env buf fmt b sr nc tr h
    exact progressWellOrdered_of_progressInOrder _
      (progressInOrder_ImportAudioFromRAWBuffer env buf fmt b sr nc 0 (by decide) tr h)

/-! ## Single-precision arithmetic: auxiliary facts -/

/-- The halving count finds the leading binary digit. -/
theorem log2Fuel_spec (fuel n : Nat) (hf : n ≤ fuel) (hn : 0 < n) :
    2 ^ log2Fuel fuel n ≤ n ∧ n < 2 ^ (log2Fuel fuel n + 1) := by
  induction fuel generalizing n with
  | zero => omega
  | succ fuel ih =>
    unfold log2Fuel
    by_cases h2 : n < 2
    · have : n = 1 := by omega
      subst this
      simp
    · simp only [h2, if_false]
      have hdiv : n / 2 ≤ fuel := by omega
      have hpos : 0 < n / 2 := by omega
      obtain ⟨h1, h3⟩ := ih (n / 2) hdiv hpos
      constructor
      · rw [pow_succ]; omega
      · rw [pow_succ]; omega

/-- The leading binary digit of `n`: `2 ^ floorLog2 n ≤ n < 2 ^ (floorLog2 n + 1)`. -/
theorem floorLog2_spec (n : Nat) (hn : 0 < n) :
    2 ^ floorLog2 n ≤ n ∧ n < 2 ^ (floorLog2 n + 1) :=
  log2Fuel_spec n n le_rfl hn

/-- The exponent of a quotient: `2 ^ e ≤ n / d < 2 ^ (e + 1)` for
`e = floorLog2Ratio n d`. -/
theorem floorLog2Ratio_spec (n d : Nat) (hn : 0 < n) (hd : 0 < d) :
    (2 : Rat) ^ floorLog2Ratio n d ≤ (n : Rat) / d
      ∧ (n : Rat) / d < (2 : Rat) ^ (floorLog2Ratio n d + 1) := by
  obtain ⟨ha1, ha2⟩ := floorLog2_spec n hn
  obtain ⟨hb1, hb2⟩ := floorLog2_spec d hd
  have hdq : (0 : Rat) < d := by exact_mod_cast hd
  have ha1q : (2 : Rat) ^ (floorLog2 n : Int) ≤ n := by
    rw [zpow_natCast]; exact_mod_cast ha1
  have ha2q : (n : Rat) < (2 : Rat) ^ ((floorLog2 n : Int) + 1) := by
    rw [show ((floorLog2 n : Int) + 1) = ((floorLog2 n + 1 : Nat) : Int) by push_cast; rfl,
      zpow_natCast]; exact_mod_cast ha2
  have hb1q : (2 : Rat) ^ (floorLog2 d : Int) ≤ d := by
    rw [zpow_natCast]; exact_mod_cast hb1
  have hb2q : (d : Rat) < (2 : Rat) ^ ((floorLog2 d : Int) + 1) := by
    rw [show ((floorLog2 d : Int) + 1) = ((floorLog2 d + 1 : Nat) : Int) by push_cast; rfl,
      zpow_natCast]; exact_mod_cast hb2
  have h2 : (0 : Rat) < 2 := by norm_num
  -- general bounds: 2^(a-b-1) < n/d < 2^(a-b+1)
  have hlow : (2 : Rat) ^ ((floorLog2 n : Int) - floorLog2 d - 1) ≤ (n : Rat) / d := by
    rw [le_div_iff₀ hdq]
    calc (2 : Rat) ^ ((floorLog2 n : Int) - floorLog2 d - 1) * d
        ≤ (2 : Rat) ^ ((floorLog2 n : Int) - floorLog2 d - 1)
            * (2 : Rat) ^ ((floorLog2 d : Int) + 1) := by
          apply mul_le_mul_of_nonneg_left hb2q.le (zpow_nonneg h2.le _)
      _ = (2 : Rat) ^ (floorLog2 n : Int) := by
          rw [← zpow_add₀ (by norm_num : (2 : Rat) ≠ 0)]; congr 1; ring
      _ ≤ n := ha1q
  have hupp : (n : Rat) / d < (2 : Rat) ^ ((floorLog2 n : Int) - floorLog2 d + 1) := by
    rw [div_lt_iff₀ hdq]
    calc (n : Rat) < (2 : Rat) ^ ((floorLog2 n : Int) + 1) := ha2q
      _ = (2 : Rat) ^ ((floorLog2 n : Int) - floorLog2 d + 1)
            * (2 : Rat) ^ (floorLog2 d : Int) := by
          rw [← zpow_add₀ (by norm_num : (2 : Rat) ≠ 0)]; congr 1; ring
      _ ≤ (2 : Rat) ^ ((floorLog2 n : Int) - floorLog2 d + 1) * d := by
          apply mul_le_mul_of_nonneg_left hb1q (zpow_nonneg h2.le _)
  -- the test
  have htest : (d * 2 ^ ((floorLog2 n : Int) - floorLog2 d).toNat
        ≤ n * 2 ^ (-((floorLog2 n : Int) - floorLog2 d)).toNat)
      ↔ (2 : Rat) ^ ((floorLog2 n : Int) - floorLog2 d) ≤ (n : Rat) / d := by
    rw [le_div_iff₀ hdq]
    rcases le_or_lt 0 ((floorLog2 n : Int) - floorLog2 d) with h | h
    · obtain ⟨c, hc⟩ := Int.eq_ofNat_of_zero_le h
      rw [hc]
      have : (-(c : Int)).toNat = 0 := by omega
      simp only [Int.toNat_ofNat, this, pow_zero, mul_one, zpow_natCast]
      rw [mul_comm]
      constructor
      · intro hh; exact_mod_cast hh
      · intro hh; exact_mod_cast hh
    · obtain ⟨c, hc⟩ := Int.eq_ofNat_of_zero_le
        (by omega : 0 ≤ -((floorLog2 n : Int) - floorLog2 d))
      have hc' : (floorLog2 n : Int) - floorLog2 d = -(c : Int) := by omega
      rw [hc']
      have : (-(c : Int)).toNat = 0 := by omega
      simp only [neg_neg, Int.toNat_ofNat, this, pow_zero, mul_one, zpow_neg, zpow_natCast]
      have hpow : (0 : Rat) < 2 ^ c := by positivity
      rw [inv_mul_le_iff₀ hpow]
      constructor
      · intro hh
        have : ((d : Nat) : Rat) ≤ ((n * 2 ^ c : Nat) : Rat) := by exact_mod_cast hh
        push_cast at this; linarith
      · intro hh
        have : ((d : Nat) : Rat) ≤ ((n * 2 ^ c : Nat) : Rat) := by push_cast; linarith
        exact_mod_cast this
  unfold floorLog2Ratio
  simp only []
  split
  · rename_i hc
    exact ⟨htest.mp hc, hupp⟩
  · rename_i hc
    refine ⟨hlow, ?_⟩
    rw [sub_add_cancel]
    exact lt_of_not_le (fun hh => hc (htest.mpr hh))

/-- Rounding to the nearest integer moves a quotient by at most one half, to
its integer part or the next integer. -/
theorem roundHalfEven_spec (N D : Nat) (hD : 0 < D) :
    |((roundHalfEven N D : Nat) : Rat) - (N : Rat) / D| ≤ 1 / 2
      ∧ N / D ≤ roundHalfEven N D ∧ roundHalfEven N D ≤ N / D + 1 := by
  have hDq : (0 : Rat) < D := by exact_mod_cast hD
  have hdm : D * (N / D) + N % D = N := Nat.div_add_mod N D
  have hlt : N % D < D := Nat.mod_lt N hD
  have hq : (N : Rat) / D = (N / D : Nat) + ((N % D : Nat) : Rat) / D := by
    have : ((D * (N / D) + N % D : Nat) : Rat) = N := by rw [hdm]
    push_cast at this
    rw [div_eq_iff (ne_of_gt hDq), add_mul, div_mul_cancel₀ _ (ne_of_gt hDq)]
    linarith
  have hr0 : (0 : Rat) ≤ ((N % D : Nat) : Rat) / D := by positivity
  unfold roundHalfEven
  split
  · rename_i h
    refine ⟨?_, le_rfl, Nat.le_succ _⟩
    have h' : ((N % D : Nat) : Rat) / D ≤ 1 / 2 := by
      rw [div_le_iff₀ hDq]
      have : ((2 * (N % D) : Nat) : Rat) < D := by exact_mod_cast h
      push_cast at this; linarith
    rw [hq, abs_le]; constructor <;> linarith
  · rename_i h
    split
    · rename_i h2
      refine ⟨?_, Nat.le_succ _, le_rfl⟩
      have h' : 1 / 2 ≤ ((N % D : Nat) : Rat) / D := by
        rw [le_div_iff₀ hDq]
        have : ((D : Nat) : Rat) < ((2 * (N % D) : Nat) : Rat) := by exact_mod_cast h2
        push_cast at this; linarith
      have h'' : ((N % D : Nat) : Rat) / D ≤ 1 := by
        rw [div_le_iff₀ hDq]
        have : ((N % D : Nat) : Rat) < D := by exact_mod_cast hlt
        linarith
      rw [hq, abs_le]; push_cast; constructor <;> linarith
    · rename_i h2
      have heq : 2 * (N % D) = D := by omega
      have h' : ((N % D : Nat) : Rat) / D = 1 / 2 := by
        rw [div_eq_iff (ne_of_gt hDq)]
        have : ((2 * (N % D) : Nat) : Rat) = D := by exact_mod_cast heq
        push_cast at this; linarith
      split
      · refine ⟨?_, le_rfl, Nat.le_succ _⟩
        rw [hq, h', abs_le]; constructor <;> linarith
      · refine ⟨?_, Nat.le_succ _, le_rfl⟩
        rw [hq, h', abs_le]; push_cast; constructor <;> linarith

/-- Scaling numerator or denominator by a power of two divides the quotient by
`2 ^ k`. -/
theorem scaled_ratio (n d : Nat) (hd : 0 < d) (k : Int) :
    ((n * 2 ^ (-k).toNat : Nat) : Rat) / ((d * 2 ^ k.toNat : Nat) : Rat)
      = (n : Rat) / d / (2 : Rat) ^ k := by
  have hdq : (d : Rat) ≠ 0 := by exact_mod_cast (ne_of_gt hd)
  rcases le_or_lt 0 k with h | h
  · obtain ⟨c, rfl⟩ := Int.eq_ofNat_of_zero_le h
    have : (-(c : Int)).toNat = 0 := by omega
    simp only [this, Int.toNat_ofNat, pow_zero, mul_one, zpow_natCast]
    push_cast
    field_simp
  · obtain ⟨c, hc⟩ := Int.eq_ofNat_of_zero_le (by omega : 0 ≤ -k)
    have hk : k = -(c : Int) := by omega
    subst hk
    have : (-(c : Int)).toNat = 0 := by omega
    simp only [neg_neg, this, Int.toNat_ofNat, pow_zero, mul_one, zpow_neg, zpow_natCast]
    push_cast
    field_simp

/-- A quotient in the range of the normal numbers rounds to a finite `float`
with a mantissa above zero, within a relative error of `2 ^ -24`. -/
theorem CFloat.round_spec (s : Bool) (n d : Nat) (hn : 0 < n) (hd : 0 < d)
    (hlo : (2 : Rat) ^ (-126 : Int) ≤ (n : Rat) / d)
    (hhi : (n : Rat) / d < (2 : Rat) ^ (127 : Int)) :
    ∃ m k, CFloat.round s n d = CFloat.finite s m k ∧ 0 < m
      ∧ |(m : Rat) * (2 : Rat) ^ k - (n : Rat) / d| ≤ (n : Rat) / d / 2 ^ 24 := by
  obtain ⟨he1, he2⟩ := floorLog2Ratio_spec n d hn hd
  have h2 : (1 : Rat) < 2 := by norm_num
  have helo : -126 ≤ floorLog2Ratio n d := by
    have : (2 : Rat) ^ (-126 : Int) < (2 : Rat) ^ (floorLog2Ratio n d + 1) :=
      lt_of_le_of_lt hlo he2
    have := (zpow_lt_zpow_iff_right₀ h2).mp this
    omega
  have hehi : floorLog2Ratio n d ≤ 126 := by
    have : (2 : Rat) ^ (floorLog2Ratio n d) < (2 : Rat) ^ (127 : Int) :=
      lt_of_le_of_lt he1 hhi
    have := (zpow_lt_zpow_iff_right₀ h2).mp this
    omega
  have hmax : max (floorLog2Ratio n d) (-126) = floorLog2Ratio n d := max_eq_left helo
  set e := floorLog2Ratio n d with he
  set k : Int := e - 23 with hk
  set N := n * 2 ^ (-k).toNat with hN
  set D := d * 2 ^ k.toNat with hDdef
  have hD : 0 < D := by positivity
  have hx : (N : Rat) / D = (n : Rat) / d / (2 : Rat) ^ k := scaled_ratio n d hd k
  have hpk : (0 : Rat) < (2 : Rat) ^ k := by positivity
  have hxlo : (2 : Rat) ^ (23 : Nat) ≤ (N : Rat) / D := by
    rw [hx, le_div_iff₀ hpk]
    calc (2 : Rat) ^ (23 : Nat) * (2 : Rat) ^ k = (2 : Rat) ^ e := by
          rw [← zpow_natCast, ← zpow_add₀ (by norm_num : (2 : Rat) ≠ 0)]; congr 1; omega
      _ ≤ _ := he1
  have hxhi : (N : Rat) / D < (2 : Rat) ^ (24 : Nat) := by
    rw [hx, div_lt_iff₀ hpk]
    calc (n : Rat) / d < (2 : Rat) ^ (e + 1) := he2
      _ = (2 : Rat) ^ (24 : Nat) * (2 : Rat) ^ k := by
          rw [← zpow_natCast, ← zpow_add₀ (by norm_num : (2 : Rat) ≠ 0)]; congr 1; omega
  obtain ⟨hr1, hr2, hr3⟩ := roundHalfEven_spec N D hD
  set m := roundHalfEven N D with hm
  have hDq : (0 : Rat) < D := by exact_mod_cast hD
  have hfloor_lo : 2 ^ 23 ≤ N / D := by
    rw [Nat.le_div_iff_mul_le hD]
    have : ((2 : Rat) ^ (23 : Nat)) * D ≤ N := by rwa [le_div_iff₀ hDq] at hxlo
    exact_mod_cast this
  have hfloor_hi : N / D < 2 ^ 24 := by
    rw [Nat.div_lt_iff_lt_mul hD]
    have : (N : Rat) < ((2 : Rat) ^ (24 : Nat)) * D := by rwa [div_lt_iff₀ hDq] at hxhi
    exact_mod_cast this
  have hmlo : 2 ^ 23 ≤ m := le_trans hfloor_lo hr2
  have hmhi : m ≤ 2 ^ 24 := by omega
  have herr : |(m : Rat) * (2 : Rat) ^ k - (n : Rat) / d| ≤ (n : Rat) / d / 2 ^ 24 := by
    have hnd : (n : Rat) / d = (N : Rat) / D * (2 : Rat) ^ k := by
      rw [hx, div_mul_cancel₀ _ (ne_of_gt hpk)]
    have h1 : (m : Rat) * (2 : Rat) ^ k - (n : Rat) / d
        = ((m : Rat) - (N : Rat) / D) * (2 : Rat) ^ k := by rw [hnd]; ring
    rw [h1, abs_mul, abs_of_pos hpk]
    calc |(m : Rat) - (N : Rat) / D| * (2 : Rat) ^ k ≤ 1 / 2 * (2 : Rat) ^ k :=
          mul_le_mul_of_nonneg_right hr1 hpk.le
      _ = (2 : Rat) ^ e / 2 ^ 24 := by
          have : (2 : Rat) ^ e = (2 : Rat) ^ k * (2 : Rat) ^ (23 : Int) := by
            rw [← zpow_add₀ (by norm_num : (2 : Rat) ≠ 0)]; congr 1; omega
          rw [this]; norm_num; ring
      _ ≤ (n : Rat) / d / 2 ^ 24 := by
          apply div_le_div_of_nonneg_right he1 (by positivity)
  have hn0 : n ≠ 0 := by omega
  have hm0 : m ≠ 0 := by
    have : 0 < 2 ^ 23 := by positivity
    omega
  unfold CFloat.round
  simp only [hn0, if_false, hmax]
  rw [← hk, ← hN, ← hDdef, ← hm]
  simp only [hm0, if_false]
  by_cases h24 : m = 2 ^ 24
  · have hk1 : ¬ (104 < k + 1) := by omega
    simp only [h24, if_true, hk1, if_false]
    refine ⟨2 ^ 23, k + 1, rfl, by positivity, ?_⟩
    have : ((2 ^ 23 : Nat) : Rat) * (2 : Rat) ^ (k + 1) = (m : Rat) * (2 : Rat) ^ k := by
      rw [h24, zpow_add₀ (by norm_num : (2 : Rat) ≠ 0)]; push_cast; ring
    rw [this]; exact herr
  · have hk1 : ¬ (104 < k) := by omega
    simp only [h24, if_false, hk1]
    exact ⟨m, k, rfl, by omega, herr⟩

/-- The quotient that `CFloat.div` rounds is the quotient of the two values. -/
theorem div_ratio (ma mb : Nat) (ea eb : Int) (hb : 0 < mb) :
    ((ma * 2 ^ (ea - eb).toNat : Nat) : Rat) / ((mb * 2 ^ (eb - ea).toNat : Nat) : Rat)
      = ((ma : Rat) * (2 : Rat) ^ ea) / ((mb : Rat) * (2 : Rat) ^ eb) := by
  have h := scaled_ratio ma mb hb (eb - ea)
  rw [show -(eb - ea) = ea - eb by ring] at h
  rw [h]
  have hbq : (mb : Rat) ≠ 0 := by exact_mod_cast (ne_of_gt hb)
  have h2 : (2 : Rat) ≠ 0 := by norm_num
  rw [zpow_sub₀ h2]
  have ha : (2 : Rat) ^ ea ≠ 0 := zpow_ne_zero _ h2
  have hb' : (2 : Rat) ^ eb ≠ 0 := zpow_ne_zero _ h2
  field_simp

/-- The smallest normal number is at most 1. -/
theorem small_pow_le_one : (2 : Rat) ^ (-126 : Int) ≤ 1 := by
  rw [zpow_neg]
  apply inv_le_one_of_one_le₀
  exact one_le_zpow₀ (by norm_num) (by norm_num)

/-- An unsigned 32-bit integer above zero converts to a finite `float` within a
relative error of `2 ^ -24`. -/
theorem CFloat.ofNat_spec (f : Nat) (hf0 : 0 < f) (hf : f < 2 ^ 32) :
    ∃ m k, CFloat.ofNat f = CFloat.finite false m k ∧ 0 < m
      ∧ |(m : Rat) * (2 : Rat) ^ k - f| ≤ (f : Rat) / 2 ^ 24 := by
  have h1 : (1 : Rat) ≤ f := by exact_mod_cast hf0
  have h2 : (f : Rat) < 2 ^ 32 := by exact_mod_cast hf
  have := CFloat.round_spec false f 1 hf0 (by norm_num)
    (by simpa using le_trans small_pow_le_one h1)
    (by
      simp only [Nat.cast_one, div_one]
      calc (f : Rat) < 2 ^ 32 := h2
        _ ≤ (2 : Rat) ^ (127 : Int) := by norm_num)
  simpa [CFloat.ofNat] using this

/-- An `int32` above zero converts to a finite `float` within a relative error
of `2 ^ -24`. -/
theorem CFloat.ofInt_spec (r : Int) (hr0 : 0 < r) (hr : r < 2 ^ 31) :
    ∃ m k, CFloat.ofInt r = CFloat.finite false m k ∧ 0 < m
      ∧ |(m : Rat) * (2 : Rat) ^ k - r| ≤ (r : Rat) / 2 ^ 24 := by
  obtain ⟨n, rfl⟩ := Int.eq_ofNat_of_zero_le (le_of_lt hr0)
  have hn0 : 0 < n := by exact_mod_cast hr0
  have hn : n < 2 ^ 32 := by
    have : n < 2 ^ 31 := by exact_mod_cast hr
    omega
  have hneg : decide ((n : Int) < 0) = false := by
    simp
  have := CFloat.ofNat_spec n hn0 hn
  simpa [CFloat.ofInt, CFloat.ofNat, hneg] using this

/-- Three roundings of relative error `2 ^ -24` each, two on the operands and
one on their quotient, stay within `2 ^ -22` of the exact quotient. -/
theorem three_roundings (f r F R Dv : Rat) (hf : 0 < f) (hr : 0 < r)
    (hF : |F - f| ≤ f / 2 ^ 24) (hR : |R - r| ≤ r / 2 ^ 24)
    (hD : |Dv - F / R| ≤ F / R / 2 ^ 24) :
    |Dv - f / r| ≤ f / r / 2 ^ 22 := by
  rw [abs_le] at hF hR hD ⊢
  have hFlo : f * (1 - 1 / 2 ^ 24) ≤ F := by linarith
  have hFhi : F ≤ f * (1 + 1 / 2 ^ 24) := by linarith
  have hRlo : r * (1 - 1 / 2 ^ 24) ≤ R := by linarith
  have hRhi : R ≤ r * (1 + 1 / 2 ^ 24) := by linarith
  have hRpos : 0 < R := lt_of_lt_of_le (by positivity) hRlo
  have hFpos : 0 < F := lt_of_lt_of_le (by positivity) hFlo
  have ht : 0 < F / R := div_pos hFpos hRpos
  have ha : 0 < f / r := div_pos hf hr
  -- t = F / R lies between a c and a C
  have hthi : F / R ≤ f / r * ((1 + 1 / 2 ^ 24) / (1 - 1 / 2 ^ 24)) := by
    rw [div_mul_div_comm]
    apply div_le_div₀ (by positivity) hFhi (by positivity) hRlo
  have htlo : f / r * ((1 - 1 / 2 ^ 24) / (1 + 1 / 2 ^ 24)) ≤ F / R := by
    rw [div_mul_div_comm]
    apply div_le_div₀ (le_of_lt hFpos) hFlo (by positivity) hRhi
  have hDhi : Dv ≤ F / R * (1 + 1 / 2 ^ 24) := by linarith
  have hDlo : F / R * (1 - 1 / 2 ^ 24) ≤ Dv := by linarith
  have c1 : ((1 : Rat) + 1 / 2 ^ 24) / (1 - 1 / 2 ^ 24) * (1 + 1 / 2 ^ 24) ≤ 1 + 1 / 2 ^ 22 := by
    norm_num
  have c2 : (1 : Rat) - 1 / 2 ^ 22 ≤ (1 - 1 / 2 ^ 24) / (1 + 1 / 2 ^ 24) * (1 - 1 / 2 ^ 24) := by
    norm_num
  constructor
  · have : f / r * (1 - 1 / 2 ^ 22) ≤ Dv := by
      calc f / r * (1 - 1 / 2 ^ 22)
          ≤ f / r * ((1 - 1 / 2 ^ 24) / (1 + 1 / 2 ^ 24) * (1 - 1 / 2 ^ 24)) :=
            mul_le_mul_of_nonneg_left c2 ha.le
        _ = f / r * ((1 - 1 / 2 ^ 24) / (1 + 1 / 2 ^ 24)) * (1 - 1 / 2 ^ 24) := by ring
        _ ≤ F / R * (1 - 1 / 2 ^ 24) :=
            mul_le_mul_of_nonneg_right htlo (by norm_num)
        _ ≤ Dv := hDlo
    linarith
  · have : Dv ≤ f / r * (1 + 1 / 2 ^ 22) := by
      calc Dv ≤ F / R * (1 + 1 / 2 ^ 24) := hDhi
        _ ≤ f / r * ((1 + 1 / 2 ^ 24) / (1 - 1 / 2 ^ 24)) * (1 + 1 / 2 ^ 24) :=
            mul_le_mul_of_nonneg_right hthi (by norm_num)
        _ = f / r * ((1 + 1 / 2 ^ 24) / (1 - 1 / 2 ^ 24) * (1 + 1 / 2 ^ 24)) := by ring
        _ ≤ f / r * (1 + 1 / 2 ^ 22) := mul_le_mul_of_nonneg_left c1 ha.le
    linarith

/-- The `float` quotient of an unsigned 32-bit integer by an `int32` above zero
is finite, not negative, and within a relative error of `2 ^ -22` of the exact
quotient. -/
theorem CFloat.div_ofNat_ofInt (f : Nat) (r : Int) (hf : f < 2 ^ 32) (hr0 : 0 < r)
    (hr : r < 2 ^ 31) :
    ∃ m k, CFloat.div (CFloat.ofNat f) (CFloat.ofInt r) = CFloat.finite false m k
      ∧ |(m : Rat) * (2 : Rat) ^ k - (f : Rat) / r| ≤ (f : Rat) / r / 2 ^ 22 := by
  obtain ⟨mr, kr, hR, hmr, hRerr⟩ := CFloat.ofInt_spec r hr0 hr
  have hmr0 : mr ≠ 0 := by omega
  rcases Nat.eq_zero_or_pos f with hf0 | hf0
  · subst hf0
    refine ⟨0, -149, ?_, by simp⟩
    rw [hR]
    simp [CFloat.ofNat, CFloat.round, CFloat.div, hmr0]
  · obtain ⟨mf, kf, hF, hmf, hFerr⟩ := CFloat.ofNat_spec f hf0 hf
    have hfq : (0 : Rat) < f := by exact_mod_cast hf0
    have hrq : (0 : Rat) < r := by exact_mod_cast hr0
    have hfq1 : (1 : Rat) ≤ f := by exact_mod_cast hf0
    have hrq1 : (1 : Rat) ≤ r := by exact_mod_cast hr0
    have hfq2 : (f : Rat) < 2 ^ 32 := by exact_mod_cast hf
    have hrq2 : (r : Rat) < 2 ^ 31 := by exact_mod_cast hr
    set F : Rat := (mf : Rat) * (2 : Rat) ^ kf with hFdef
    set R : Rat := (mr : Rat) * (2 : Rat) ^ kr with hRdef
    have hFb := abs_le.mp hFerr
    have hRb := abs_le.mp hRerr
    have hFlo : (1 : Rat) / 2 ≤ F := by
      have : (f : Rat) / 2 ^ 24 ≤ f / 2 := by
        apply div_le_div_of_nonneg_left hfq.le (by norm_num) (by norm_num)
      linarith
    have hFhi : F < 2 ^ 33 := by
      have : (f : Rat) / 2 ^ 24 ≤ f := div_le_self hfq.le (by norm_num)
      linarith
    have hRlo : (1 : Rat) / 2 ≤ R := by
      have : (r : Rat) / 2 ^ 24 ≤ r / 2 := by
        apply div_le_div_of_nonneg_left hrq.le (by norm_num) (by norm_num)
      linarith
    have hRhi : R < 2 ^ 32 := by
      have : (r : Rat) / 2 ^ 24 ≤ r := div_le_self hrq.le (by norm_num)
      linarith
    have hRpos : (0 : Rat) < R := by linarith
    have hFpos : (0 : Rat) < F := by linarith
    have hN : 0 < mf * 2 ^ (kf - kr).toNat := by positivity
    have hDpos : 0 < mr * 2 ^ (kr - kf).toNat := by positivity
    have hratio := div_ratio mf mr kf kr hmr
    rw [← hFdef, ← hRdef] at hratio
    have hqlo : (2 : Rat) ^ (-126 : Int) ≤ F / R := by
      rw [le_div_iff₀ hRpos]
      have h1 : (2 : Rat) ^ (-126 : Int) * R ≤ (2 : Rat) ^ (-126 : Int) * 2 ^ 32 :=
        mul_le_mul_of_nonneg_left hRhi.le (by positivity)
      have h2 : (2 : Rat) ^ (-126 : Int) * 2 ^ 32 ≤ 1 / 2 := by norm_num
      exact le_trans h1 (le_trans h2 hFlo)
    have hqhi : F / R < (2 : Rat) ^ (127 : Int) := by
      rw [div_lt_iff₀ hRpos]
      have h1 : (2 : Rat) ^ (127 : Int) * (1 / 2) ≤ (2 : Rat) ^ (127 : Int) * R :=
        mul_le_mul_of_nonneg_left hRlo (by positivity)
      have h2 : (2 : Rat) ^ 33 ≤ (2 : Rat) ^ (127 : Int) * (1 / 2) := by norm_num
      exact lt_of_lt_of_le hFhi (le_trans h2 h1)
    obtain ⟨m, k, hD, _, hDerr⟩ := CFloat.round_spec false _ _ hN hDpos
      (by rw [hratio]; exact hqlo) (by rw [hratio]; exact hqhi)
    rw [hratio] at hDerr
    refine ⟨m, k, ?_, three_roundings f r F R _ hfq hrq hFerr hRerr hDerr⟩
    rw [hF, hR]
    simp only [CFloat.div, hmr0, if_false, Bool.xor_false]
    exact hD

/-! ## RAW import and file loading -/

/-- C14, as stated, fails: for a buffer of 3 bytes, 1 channel and 44100 Hz the
frame count is 1 and the PCM buffer has 3 bytes, not 1 × 1 × 2; and for a
buffer of 8 bytes, 2 channels and 44100 Hz the duration is the `float`
12466118 × 2 ^ -38, not the quotient 2 / 44100. -/
theorem ImportAudioFromInt16Buffer_invariant_fails :
    (0 : Int) ≤ 3 ∧ (0 : Int) < 1 ∧ (0 : Int) < 44100
      ∧ (ImportAudioFromInt16Buffer.info [1, 2, 3] 3 44100 1).PCMInfo.PCMNumOfFrames = 1
      ∧ (ImportAudioFromInt16Buffer.info [1, 2, 3] 3 44100 1).PCMInfo.PCMData.length = 3
      ∧ (3 : Int) ≠ (ImportAudioFromInt16Buffer.info [1, 2, 3] 3 44100 1).PCMInfo.PCMNumOfFrames
          * (ImportAudioFromInt16Buffer.info [1, 2, 3] 3 44100 1).SoundWaveBasicInfo.NumOfChannels
          * 2
      ∧ (ImportAudioFromInt16Buffer.info [1, 0, 2, 0, 3, 0, 4, 0] 8 44100
          2).PCMInfo.PCMNumOfFrames = 2
      ∧ (ImportAudioFromInt16Buffer.info [1, 0, 2, 0, 3, 0, 4, 0] 8 44100
          2).SoundWaveBasicInfo.Duration = CFloat.finite false 12466118 (-38)
      ∧ (12466118 : Rat) * (2 : Rat) ^ (-38 : Int) ≠ (2 : Rat) / 44100 := by
  refine ⟨by decide, by decide, by decide, by decide, by decide, by decide, by decide,
    by decide, ?_⟩
  norm_num

/-- C14, amended: for an `int32` size that is not negative and an `int32`
channel count and sample rate above zero, the decoded audio has frame count
`PCMDataSize / 2 / NumOfChannels`, the caller's channel count and sample rate,
and as duration the `float` quotient of frame count and sample rate, a finite
`float` that is not negative and lies within a relative error of `2 ^ -22` of
frame count over sample rate; frame count × channels × 2 is at most
`PCMDataSize` and misses it by less than one frame, and equals it exactly when
`PCMDataSize` is a multiple of 2 × `NumOfChannels`.  The PCM view has
`PCMDataSize` bytes when the buffer holds that many. -/
theorem ImportAudioFromInt16Buffer_info (PCMData : Bytes)
    (PCMDataSize SampleRate NumOfChannels : Int)
    (hSize : 0 ≤ PCMDataSize) (hSize32 : PCMDataSize < 2 ^ 31)
    (hChannels : 0 < NumOfChannels) (hChannels32 : NumOfChannels < 2 ^ 31)
    (hRate : 0 < SampleRate) (hRate32 : SampleRate < 2 ^ 31) :
    (ImportAudioFromInt16Buffer.info PCMData PCMDataSize SampleRate
        NumOfChannels).PCMInfo.PCMNumOfFrames
        = PCMDataSize / 2 / NumOfChannels
      ∧ (ImportAudioFromInt16Buffer.info PCMData PCMDataSize SampleRate
          NumOfChannels).SoundWaveBasicInfo.NumOfChannels = NumOfChannels
      ∧ (ImportAudioFromInt16Buffer.info PCMData PCMDataSize SampleRate
          NumOfChannels).SoundWaveBasicInfo.SampleRate = SampleRate
      ∧ (ImportAudioFromInt16Buffer.info PCMData PCMDataSize SampleRate
          NumOfChannels).SoundWaveBasicInfo.Duration
        = CFloat.div (CFloat.ofNat (PCMDataSize / 2 / NumOfChannels).toNat)
            (CFloat.ofInt SampleRate)
      ∧ (∃ (m : Nat) (k : Int),
          (ImportAudioFromInt16Buffer.info PCMData PCMDataSize SampleRate
            NumOfChannels).SoundWaveBasicInfo.Duration = CFloat.finite false m k
          ∧ |(m : Rat) * (2 : Rat) ^ k
                - ((PCMDataSize / 2 / NumOfChannels : Int) : Rat) / (SampleRate : Rat)|
              ≤ ((PCMDataSize / 2 / NumOfChannels : Int) : Rat) / (SampleRate : Rat) / 2 ^ 22)
      ∧ PCMDataSize / 2 / NumOfChannels * NumOfChannels * 2 ≤ PCMDataSize
      ∧ PCMDataSize < (PCMDataSize / 2 / NumOfChannels + 1) * NumOfChannels * 2
      ∧ (PCMDataSize = PCMDataSize / 2 / NumOfChannels * NumOfChannels * 2
          ↔ PCMDataSize % (2 * NumOfChannels) = 0)
      ∧ ((PCMDataSize.toNat ≤ PCMData.length) →
          ((ImportAudioFromInt16Buffer.info PCMData PCMDataSize SampleRate
            NumOfChannels).PCMInfo.PCMData.length : Int) = PCMDataSize) := by
  obtain ⟨n, rfl⟩ := Int.eq_ofNat_of_zero_le hSize
  obtain ⟨c, rfl⟩ := Int.eq_ofNat_of_zero_le (le_of_lt hChannels)
  have hn : n < 2 ^ 31 := by exact_mod_cast hSize32
  have hc : c < 2 ^ 31 := by exact_mod_cast hChannels32
  have hc0 : 0 < c := by exact_mod_cast hChannels
  have h1 : toSizeT (n : Int) = n := by
    unfold toSizeT
    have : ((n : Int) % 2 ^ 64) = n := Int.emod_eq_of_lt (by omega) (by omega)
    rw [this]; simp
  have h2 : toSizeT (c : Int) = c := by
    unfold toSizeT
    have : ((c : Int) % 2 ^ 64) = c := Int.emod_eq_of_lt (by omega) (by omega)
    rw [this]; simp
  have h3 : n / 2 / c < 2 ^ 32 := by
    calc n / 2 / c ≤ n / 2 := Nat.div_le_self _ _
      _ ≤ n := Nat.div_le_self _ _
      _ < 2 ^ 32 := by omega
  have hnat : toSizeT (n : Int) / 2 / toSizeT (c : Int) % 2 ^ 32 = n / 2 / c := by
    rw [h1, h2, Nat.mod_eq_of_lt h3]
  have hint : (n : Int) / 2 / (c : Int) = ((n / 2 / c : Nat) : Int) := by
    push_cast
    rfl
  have hcast : (n : Int) / 2 / (c : Int) = ((n / (2 * c) : Nat) : Int) := by
    rw [← Nat.div_div_eq_div_mul]
    push_cast
    rfl
  have hle : n / (2 * c) * (2 * c) ≤ n := Nat.div_mul_le_self n (2 * c)
  have hmod : 2 * c * (n / (2 * c)) + n % (2 * c) = n := Nat.div_add_mod n (2 * c)
  have hlt : n % (2 * c) < 2 * c := Nat.mod_lt _ (by omega)
  have hdur : (ImportAudioFromInt16Buffer.info PCMData (n : Int) SampleRate
      (c : Int)).SoundWaveBasicInfo.Duration
      = CFloat.div (CFloat.ofNat (n / 2 / c)) (CFloat.ofInt SampleRate) := by
    simp only [ImportAudioFromInt16Buffer.info, hnat]
  refine ⟨?_, rfl, rfl, ?_, ?_, ?_, ?_, ?_, ?_⟩
  · simp only [ImportAudioFromInt16Buffer.info, hnat]
    exact hint.symm
  · rw [hdur, hint, Int.toNat_ofNat]
  · obtain ⟨m, k, hm, herr⟩ := CFloat.div_ofNat_ofInt (n / 2 / c) SampleRate h3 hRate hRate32
    refine ⟨m, k, by rw [hdur]; exact hm, ?_⟩
    rw [hint, Int.cast_natCast]
    exact herr
  · rw [hcast]
    have : n / (2 * c) * c * 2 ≤ n := by nlinarith
    exact_mod_cast this
  · rw [hcast]
    have : n < (n / (2 * c) + 1) * c * 2 := by nlinarith
    exact_mod_cast this
  · rw [hcast]
    have hiff : n = n / (2 * c) * c * 2 ↔ n % (2 * c) = 0 := by
      constructor <;> intro h <;> nlinarith
    have e1 : ((n : Int) = ((n / (2 * c) : Nat) : Int) * (c : Int) * 2)
        ↔ n = n / (2 * c) * c * 2 := by
      constructor
      · intro h; exact_mod_cast h
      · intro h; exact_mod_cast h
    have e2 : ((n : Int) % (2 * (c : Int)) = 0) ↔ n % (2 * c) = 0 := by
      constructor
      · intro h; exact_mod_cast h
      · intro h; exact_mod_cast h
    rw [e1, e2]
    exact hiff
  · intro hlen
    simp only [ImportAudioFromInt16Buffer.info, List.length_take]
    simp only [Int.toNat_ofNat] at hlen ⊢
    omega

/-- The amended C14 at a buffer of 8 bytes with 2 channels and 44100 Hz, with
the duration the run computes. -/
theorem ImportAudioFromInt16Buffer_info_witness :
    (0 : Int) ≤ 8 ∧ (8 : Int) < 2 ^ 31 ∧ (0 : Int) < 2 ∧ (2 : Int) < 2 ^ 31
      ∧ (0 : Int) < 44100 ∧ (44100 : Int) < 2 ^ 31
      ∧ (ImportAudioFromInt16Buffer.info [1, 0, 2, 0, 3, 0, 4, 0] 8 44100
          2).PCMInfo.PCMNumOfFrames
        = 8 / 2 / 2
      ∧ (ImportAudioFromInt16Buffer.info [1, 0, 2, 0, 3, 0, 4, 0] 8 44100
          2).SoundWaveBasicInfo.Duration
        = CFloat.div (CFloat.ofNat ((8 : Int) / 2 / 2).toNat) (CFloat.ofInt 44100)
      ∧ CFloat.div (CFloat.ofNat ((8 : Int) / 2 / 2).toNat) (CFloat.ofInt 44100)
        = CFloat.finite false 12466118 (-38) :=
  ⟨by decide, by decide, by decide, by decide, by decide, by decide,
    (ImportAudioFromInt16Buffer_info [1, 0, 2, 0, 3, 0, 4, 0] 8 44100 2
      (by decide) (by decide) (by decide) (by decide) (by decide) (by decide)).1,
    (ImportAudioFromInt16Buffer_info [1, 0, 2, 0, 3, 0, 4, 0] 8 44100 2
      (by decide) (by decide) (by decide) (by decide) (by decide) (by decide)).2.2.2.1,
    by decide⟩

/-- C15: when the file read succeeds with `n` bytes and `n` is at least 2,
`LoadAudioFileToArray` returns true with the first `n - 2` bytes, and the
range passed to `RemoveAt`, index `n - 2` and count 2, lies inside the array.
With fewer than 2 bytes the index `n - 2` is negative and the call has no
defined result. -/
theorem LoadAudioFileToArray_trims_two_bytes (env : Env) (FilePath : String) (FileData : Bytes)
    (hRead : env.LoadFileToArray FilePath = some FileData) :
    (2 ≤ FileData.length →
        LoadAudioFileToArray env FilePath
            = LoadOutcome.ReturnsTrue (FileData.take (FileData.length - 2))
          ∧ TArray.RemoveAt FileData ((FileData.length : Int) - 2) 2
            = some (FileData.take (FileData.length - 2))
          ∧ (0 : Int) ≤ (FileData.length : Int) - 2
          ∧ (FileData.length : Int) - 2 + 2 ≤ FileData.length)
      ∧ (FileData.length < 2 →
        LoadAudioFileToArray env FilePath
            = LoadOutcome.RemoveAtOutOfRange ((FileData.length : Int) - 2)
          ∧ (FileData.length : Int) - 2 < 0) := by
  constructor
  · intro h
    have h1 : (0 : Int) ≤ (FileData.length : Int) - 2 := by omega
    have h2 : ((FileData.length : Int) - 2).toNat = FileData.length - 2 := by omega
    have h3 : ((FileData.length : Int) - 2 + 2).toNat = FileData.length := by omega
    simp [LoadAudioFileToArray, hRead, TArray.RemoveAt, h1, h2, h3]
  · intro h
    have h1 : ¬ (0 : Int) ≤ (FileData.length : Int) - 2 := by omega
    simp [LoadAudioFileToArray, hRead, TArray.RemoveAt, h1]
    omega

/-- The statement C15 at the file `clip.dat` of `demoEnv`, of 8 bytes, and at
a file of 1 byte. -/
theorem LoadAudioFileToArray_trims_two_bytes_witness :
    demoEnv.LoadFileToArray "clip.dat" = some [82, 73, 70, 70, 0, 0, 0, 0]
      ∧ LoadAudioFileToArray demoEnv "clip.dat"
        = LoadOutcome.ReturnsTrue [82, 73, 70, 70, 0, 0]
      ∧ demoEnvTinyFile.LoadFileToArray "clip.dat" = some [7]
      ∧ LoadAudioFileToArray demoEnvTinyFile "clip.dat" = LoadOutcome.RemoveAtOutOfRange (-1) :=
  ⟨by decide,
    ((LoadAudioFileToArray_trims_two_bytes demoEnv "clip.dat" [82, 73, 70, 70, 0, 0, 0, 0]
      (by decide)).1 (by decide)).1,
    by decide,
    ((LoadAudioFileToArray_trims_two_bytes demoEnvTinyFile "clip.dat" [7]
      (by decide)).2 (by decide)).1⟩

/-! ## Encoding and the seconds text -/

/-- C16: `EncodeAudioData` returns false and calls no encoder when the target
tag is Auto or Invalid; for Wav it calls the WAV encoder once, and for
OggVorbis the Vorbis encoder once with the caller's quality, and returns the
flag and the encoded struct of that call. -/
theorem EncodeAudioData_dispatch (env : Env) (dec : FDecodedAudioStruct) (data : Bytes)
    (Quality : Nat) :
    (EncodeAudioData env dec { AudioData := data, AudioFormat := EAudioFormat.Auto } Quality).ret
        = false
      ∧ (EncodeAudioData env dec { AudioData := data, AudioFormat := EAudioFormat.Auto }
          Quality).calls = []
      ∧ (EncodeAudioData env dec { AudioData := data, AudioFormat := EAudioFormat.Invalid }
          Quality).ret = false
      ∧ (EncodeAudioData env dec { AudioData := data, AudioFormat := EAudioFormat.Invalid }
          Quality).calls = []
      ∧ (EncodeAudioData env dec { AudioData := data, AudioFormat := EAudioFormat.Wav }
          Quality).calls = [Event.Encode Transcoder.WAVTranscoder dec]
      ∧ (EncodeAudioData env dec { AudioData := data, AudioFormat := EAudioFormat.Wav }
          Quality).ret
        = (env.WAVEncode dec { AudioData := data, AudioFormat := EAudioFormat.Wav }
            { Format := EWAVEncodingFormat.FORMAT_IEEE_FLOAT, BitsPerSample := 32 }).1
      ∧ (EncodeAudioData env dec { AudioData := data, AudioFormat := EAudioFormat.Wav }
          Quality).EncodedAudioInfo
        = (env.WAVEncode dec { AudioData := data, AudioFormat := EAudioFormat.Wav }
            { Format := EWAVEncodingFormat.FORMAT_IEEE_FLOAT, BitsPerSample := 32 }).2
      ∧ (EncodeAudioData env dec { AudioData := data, AudioFormat := EAudioFormat.OggVorbis }
          Quality).calls = [Event.Encode Transcoder.VorbisTranscoder dec]
      ∧ (EncodeAudioData env dec { AudioData := data, AudioFormat := EAudioFormat.OggVorbis }
          Quality).ret
        = (env.VorbisEncode dec { AudioData := data, AudioFormat := EAudioFormat.OggVorbis }
            Quality).1
      ∧ (EncodeAudioData env dec { AudioData := data, AudioFormat := EAudioFormat.OggVorbis }
          Quality).EncodedAudioInfo
        = (env.VorbisEncode dec { AudioData := data, AudioFormat := EAudioFormat.OggVorbis }
            Quality).2 := by
  simp [EncodeAudioData]

/-- Below 100, the padding of `ConvertSecondsToString` writes two digits. -/
theorem pad_eq_twoDigits : ∀ k : Nat, k < 100 →
    (if (k : Int) < 10 then "0" ++ FString.FromInt (k : Int) else FString.FromInt (k : Int))
      = twoDigits k := by
  decide

/-- Two digits are two characters. -/
theorem twoDigits_length (k : Nat) : (twoDigits k).length = 2 := by
  simp [twoDigits, String.length]

/-- C17: for 0 ≤ `Seconds` < 3600 the text is the minutes and the seconds, two
digits each, joined by a colon, 5 characters with no hour field; for 3600 ≤
`Seconds` < 360000 it is hours, minutes and seconds, two digits each, joined
by colons, 8 characters.  In the whole range the hour field is there exactly
when `Seconds` is at least 3600. -/
theorem ConvertSecondsToString_format (Seconds : Int) (h0 : 0 ≤ Seconds) (h1 : Seconds < 360000) :
    (Seconds < 3600 →
        ConvertSecondsToString Seconds
            = twoDigits (Seconds.toNat / 60) ++ ":" ++ twoDigits (Seconds.toNat % 60)
          ∧ (ConvertSecondsToString Seconds).length = 5)
      ∧ (3600 ≤ Seconds →
        ConvertSecondsToString Seconds
            = twoDigits (Seconds.toNat / 3600) ++ ":" ++ twoDigits (Seconds.toNat % 3600 / 60)
              ++ ":" ++ twoDigits (Seconds.toNat % 60)
          ∧ (ConvertSecondsToString Seconds).length = 8)
      ∧ ((ConvertSecondsToString Seconds).length = 8 ↔ 3600 ≤ Seconds) := by
  obtain ⟨n, rfl⟩ := Int.eq_ofNat_of_zero_le h0
  have hn : n < 360000 := by exact_mod_cast h1
  have hH : (n : Int).tdiv 3600 = ((n / 3600 : Nat) : Int) := by
    rw [Int.tdiv_eq_ediv (by omega) (by omega)]; push_cast; rfl
  have hR : (n : Int).tmod 3600 = ((n % 3600 : Nat) : Int) := by
    rw [Int.tmod_eq_emod (by omega) (by omega)]; push_cast; rfl
  have hM : ((n % 3600 : Nat) : Int).tdiv 60 = ((n % 3600 / 60 : Nat) : Int) := by
    rw [Int.tdiv_eq_ediv (by omega) (by omega)]; push_cast; rfl
  have hS : ((n % 3600 : Nat) : Int).tmod 60 = ((n % 60 : Nat) : Int) := by
    rw [Int.tmod_eq_emod (by omega) (by omega)]
    have : n % 3600 % 60 = n % 60 := by omega
    rw [← this]; push_cast; rfl
  have pH := pad_eq_twoDigits (n / 3600) (by omega)
  have pM := pad_eq_twoDigits (n % 3600 / 60) (by omega)
  have pS := pad_eq_twoDigits (n % 60) (by omega)
  have shape : ConvertSecondsToString (n : Int)
      = (if 3600 ≤ n then twoDigits (n / 3600) ++ ":" else "")
          ++ (twoDigits (n % 3600 / 60) ++ ":") ++ twoDigits (n % 60) := by
    simp only [ConvertSecondsToString, hH, hR, hM, hS, pH, pM, pS]
    by_cases h : 3600 ≤ n
    · have hpos : ((n / 3600 : Nat) : Int) > 0 := by
        have : 0 < n / 3600 := Nat.div_pos h (by omega)
        exact_mod_cast this
      rw [if_pos hpos, if_pos h]
    · have hneg : ¬ ((n / 3600 : Nat) : Int) > 0 := by
        have : n / 3600 = 0 := by omega
        rw [this]; decide
      rw [if_neg hneg, if_neg h]
  have hcolon : ":".length = 1 := by decide
  simp only [Int.toNat_ofNat]
  refine ⟨?_, ?_, ?_⟩
  · intro h
    have h' : ¬ 3600 ≤ n := by omega
    have e : n % 3600 = n := by omega
    rw [shape, if_neg h', e]
    simp only [String.empty_append, String.append_assoc, String.length_append,
      twoDigits_length, hcolon, and_self]
  · intro h
    have h' : 3600 ≤ n := by exact_mod_cast h
    rw [shape, if_pos h']
    simp only [String.append_assoc, String.length_append, twoDigits_length, hcolon, and_self]
  · rw [shape]
    by_cases h : 3600 ≤ n
    · have hI : (3600 : Int) ≤ (n : Int) := by exact_mod_cast h
      rw [if_pos h]
      simp only [String.append_assoc, String.length_append, twoDigits_length, hcolon, hI]
    · have hI : ¬ (3600 : Int) ≤ (n : Int) := by
        intro hc; exact h (by exact_mod_cast hc)
      rw [if_neg h]
      simp only [String.empty_append, String.append_assoc, String.length_append,
        twoDigits_length, hcolon, hI]
      decide

/-- The statement C17 at 3725 seconds, with the texts for 59 and 3725
seconds. -/
theorem ConvertSecondsToString_format_witness :
    (0 : Int) ≤ 3725 ∧ (3725 : Int) < 360000
      ∧ ((ConvertSecondsToString 3725).length = 8 ↔ (3600 : Int) ≤ 3725)
      ∧ ConvertSecondsToString 3725 = "01:02:05"
      ∧ ConvertSecondsToString 59 = "00:59" :=
  ⟨by decide, by decide,
    (ConvertSecondsToString_format 3725 (by decide) (by decide)).2.2,
    by decide, by decide⟩

/-! ## The RAW buffer allocation -/

/-- C18: on the code, the Int16 case of `ImportAudioFromRAWBuffer` asks the
allocator for 0 bytes, whatever the buffer, and then copies all `RAWDataSize`
bytes; the `PCMDataSize` handed on does equal `RAWDataSize`.  For a buffer of
4 bytes the run requests 0 bytes, copies 4 and goes on to Success. -/
theorem ImportAudioFromRAWBuffer_int16_allocates_nothing :
    (∀ (env : Env) (RAWBuffer : Bytes),
        (ImportAudioFromRAWBuffer.transcode env RAWBuffer ERAWAudioFormat.Int16).calls
            = [Event.Malloc 0, Event.Memcpy RAWBuffer.length]
          ∧ (ImportAudioFromRAWBuffer.transcode env RAWBuffer ERAWAudioFormat.Int16).PCMDataSize
            = RAWBuffer.length)
      ∧ (ImportAudioFromRAWBuffer demoEnv [1, 0, 2, 0] ERAWAudioFormat.Int16 true 44100 1).map
          mallocSizes = some [0]
      ∧ (ImportAudioFromRAWBuffer demoEnv [1, 0, 2, 0] ERAWAudioFormat.Int16 true 44100 1).map
          memcpyCounts = some [4]
      ∧ (ImportAudioFromRAWBuffer demoEnv [1, 0, 2, 0] ERAWAudioFormat.Int16 true 44100 1).map
          results = some [ETranscodingStatus.SuccessfulImport] := by
  refine ⟨?_, by decide, by decide, by decide⟩
  intro env RAWBuffer
  simp [ImportAudioFromRAWBuffer.transcode]

end RuntimeAudioImporter
